import Mathlib

/-!
Shallow embedding of the exercise-navigation / grading tracker of
`NextLib.py` (PLaTon helper libraries), together with theorems checking the
natural-language specification against the code.

Python machine integers are unbounded, so `Int`/`Nat` model them directly.
Python dictionaries are modelled as insertion-ordered association lists with
unique keys (a Python `dict` cannot hold a duplicate key).  Exceptions are
modelled with `Except`; a raising command returns the state reached at the
moment of the raise (Python does not roll back mutations on an exception).
-/

/-! ### JSON values and `json.dumps(..., sort_keys=True)`

`hashParams` serializes a parameter dictionary with
`json.dumps(params_with_id, sort_keys=True)` and hashes the UTF-8 bytes with
MD5.  The value type below covers the JSON-serializable Python values
(excluding floats, which the library never produces). -/

inductive JVal where
| jnull : JVal
| jbool : Bool → JVal
| jnum : Int → JVal
| jstr : String → JVal
deriving Repr, DecidableEq

/-- Four lowercase hexadecimal digits, as produced by Python's
format string 04x used by the json encoder for unicode escapes. -/
def hex4 (n : Nat) : String :=
  let d := fun (k : Nat) =>
    if k < 10 then Char.ofNat (48 + k) else Char.ofNat (87 + k)
  String.mk [d (n / 4096 % 16), d (n / 256 % 16), d (n / 16 % 16), d (n % 16)]

/-- Escaping of one character, following the CPython json encoder with
ensure_ascii (the default): double quote and backslash get a backslash
escape, printable ASCII (0x20 to 0x7e) is kept, the short control escapes
are used for backspace, tab, newline, form feed and carriage return, and
every other character becomes a unicode escape (a surrogate pair beyond
the basic plane). -/
def escapeChar (c : Char) : String :=
  if c = '\\' then "\\\\"
  else if c = '\"' then "\\\""
  else if c = '\x08' then "\\b"
  else if c = '\t' then "\\t"
  else if c = '\n' then "\\n"
  else if c = '\x0c' then "\\f"
  else if c = '\r' then "\\r"
  else if 0x20 ≤ c.toNat ∧ c.toNat ≤ 0x7e then String.mk [c]
  else if c.toNat < 0x10000 then "\\u" ++ hex4 c.toNat
  else
    let v := c.toNat - 0x10000
    "\\u" ++ hex4 (0xd800 + v / 0x400) ++ "\\u" ++ hex4 (0xdc00 + v % 0x400)

/-- A JSON string literal: the escaped characters between double quotes. -/
def jstrLit (s : String) : String :=
  "\"" ++ String.join (s.data.map escapeChar) ++ "\""

/-- Python's `<` on strings: code-point lexicographic comparison of the
character lists. -/
def charListLt : List Char → List Char → Bool
| [], [] => false
| [], _ :: _ => true
| _ :: _, [] => false
| c :: cs, d :: ds =>
    if c.toNat < d.toNat then true
    else if d.toNat < c.toNat then false
    else charListLt cs ds

/-- Python's `<` on strings. -/
def strLt (a b : String) : Bool := charListLt a.data b.data

/-- Python's `<=` on strings. -/
def strLE (a b : String) : Bool := strLt a b || a == b

/-- Ordering used by `sorted` on the items of a dictionary: Python compares
the (key, value) tuples lexicographically, comparing strings by code
point.  (With unique keys the comparison never reaches the value.) -/
def pairLE (a b : String × String) : Prop :=
  strLt a.1 b.1 = true ∨ (a.1 = b.1 ∧ strLE a.2 b.2 = true)

instance : DecidableRel pairLE := fun a b => by
  unfold pairLE; infer_instance

/-- Characters with equal code points are equal. -/
theorem charToNat_inj {a b : Char} (h : a.toNat = b.toNat) : a = b := by
  have h1 := congrArg Char.ofNat h
  rwa [Char.ofNat_toNat, Char.ofNat_toNat] at h1

/-- Strings with equal character lists are equal. -/
theorem strData_inj {a b : String} (h : a.data = b.data) : a = b := by
  cases a; cases b; exact congrArg String.mk h

/-- The code-point comparison is irreflexive. -/
theorem charListLt_irrefl : ∀ x, charListLt x x = false
| [] => rfl
| c :: cs => by
    unfold charListLt
    rw [if_neg (Nat.lt_irrefl _), if_neg (Nat.lt_irrefl _)]
    exact charListLt_irrefl cs

/-- The code-point comparison is asymmetric. -/
theorem charListLt_asymm : ∀ x y, charListLt x y = true →
    charListLt y x = false
| [], [] => by intro h; exact absurd h (by simp [charListLt])
| [], _ :: _ => by intro _; rfl
| _ :: _, [] => by intro h; exact absurd h (by simp [charListLt])
| c :: cs, d :: ds => by
    intro h
    unfold charListLt at h ⊢
    by_cases h1 : c.toNat < d.toNat
    · rw [if_neg (by omega), if_pos h1]
    · rw [if_neg h1] at h
      by_cases h2 : d.toNat < c.toNat
      · rw [if_pos h2] at h; exact absurd h (by simp)
      · rw [if_neg h2] at h
        rw [if_neg h2, if_neg h1]
        exact charListLt_asymm cs ds h

/-- The code-point comparison is transitive. -/
theorem charListLt_trans : ∀ x y z, charListLt x y = true →
    charListLt y z = true → charListLt x z = true
| _, [], [] => by intro _ h2; exact absurd h2 (by simp [charListLt])
| _, _ :: _, [] => by intro _ h2; exact absurd h2 (by simp [charListLt])
| [], _, _ :: _ => by intro _ _; rfl
| _ :: _, [], _ :: _ => by intro h1 _; exact absurd h1 (by simp [charListLt])
| a :: as, b :: bs, c :: cs => by
    intro h1 h2
    unfold charListLt at h1 h2 ⊢
    by_cases hba : b.toNat < a.toNat
    · rw [if_neg (by omega), if_pos hba] at h1; exact absurd h1 (by simp)
    · by_cases hcb : c.toNat < b.toNat
      · rw [if_neg (by omega), if_pos hcb] at h2; exact absurd h2 (by simp)
      · by_cases hac : a.toNat < c.toNat
        · rw [if_pos hac]
        · have hca : ¬ c.toNat < a.toNat := by
            by_cases hab : a.toNat < b.toNat
            · by_cases hbc : b.toNat < c.toNat
              · omega
              · omega
            · omega
          rw [if_neg hac, if_neg hca]
          have hab : ¬ a.toNat < b.toNat := by omega
          have hbc : ¬ b.toNat < c.toNat := by omega
          rw [if_neg hab, if_neg hba] at h1
          rw [if_neg hbc, if_neg hcb] at h2
          exact charListLt_trans as bs cs h1 h2

/-- The code-point comparison is total up to equality. -/
theorem charListLt_total : ∀ x y, charListLt x y = true ∨
    charListLt y x = true ∨ x = y
| [], [] => Or.inr (Or.inr rfl)
| [], _ :: _ => Or.inl rfl
| _ :: _, [] => Or.inr (Or.inl rfl)
| c :: cs, d :: ds => by
    by_cases h1 : c.toNat < d.toNat
    · left; unfold charListLt; rw [if_pos h1]
    · by_cases h2 : d.toNat < c.toNat
      · right; left; unfold charListLt; rw [if_pos h2]
      · have hcd : c = d := charToNat_inj (by omega)
        rcases charListLt_total cs ds with h | h | h
        · left; unfold charListLt; rw [if_neg h1, if_neg h2]; exact h
        · right; left; unfold charListLt; rw [if_neg h2, if_neg h1]; exact h
        · right; right; rw [hcd, h]

/-- Unfolding of the string comparison with both cases. -/
theorem strLE_iff {x y : String} :
    strLE x y = true ↔ (strLt x y = true ∨ x = y) := by
  simp [strLE, Bool.or_eq_true, beq_iff_eq]

instance : IsTotal (String × String) pairLE where
  total a b := by
    rcases charListLt_total a.1.data b.1.data with h | h | h
    · exact Or.inl (Or.inl h)
    · exact Or.inr (Or.inl h)
    · have h1 : a.1 = b.1 := strData_inj h
      rcases charListLt_total a.2.data b.2.data with h' | h' | h'
      · exact Or.inl (Or.inr ⟨h1, strLE_iff.mpr (Or.inl h')⟩)
      · exact Or.inr (Or.inr ⟨h1.symm, strLE_iff.mpr (Or.inl h')⟩)
      · exact Or.inl (Or.inr ⟨h1,
          strLE_iff.mpr (Or.inr (strData_inj h'))⟩)

instance : IsTrans (String × String) pairLE where
  trans a b c hab hbc := by
    rcases hab with h1 | ⟨e1, l1⟩ <;> rcases hbc with h2 | ⟨e2, l2⟩
    · exact Or.inl (charListLt_trans _ _ _ h1 h2)
    · exact Or.inl (e2 ▸ h1)
    · exact Or.inl (e1 ▸ h2)
    · refine Or.inr ⟨e1.trans e2, ?_⟩
      rcases strLE_iff.mp l1 with hl1 | hl1 <;>
        rcases strLE_iff.mp l2 with hl2 | hl2
      · exact strLE_iff.mpr (Or.inl (charListLt_trans _ _ _ hl1 hl2))
      · exact strLE_iff.mpr (Or.inl (hl2 ▸ hl1))
      · exact strLE_iff.mpr (Or.inl (hl1 ▸ hl2))
      · exact strLE_iff.mpr (Or.inr (hl1.trans hl2))

instance : IsAntisymm (String × String) pairLE where
  antisymm a b hab hba := by
    rcases hab with h1 | ⟨e1, l1⟩ <;> rcases hba with h2 | ⟨e2, l2⟩
    · unfold strLt at h2
      rw [charListLt_asymm _ _ h1] at h2; exact absurd h2 (by simp)
    · rw [e2] at h1; rw [strLt, charListLt_irrefl] at h1
      exact absurd h1 (by simp)
    · rw [e1] at h2; rw [strLt, charListLt_irrefl] at h2
      exact absurd h2 (by simp)
    · refine Prod.ext e1 ?_
      rcases strLE_iff.mp l1 with hl1 | hl1
      · rcases strLE_iff.mp l2 with hl2 | hl2
        · unfold strLt at hl2
          rw [charListLt_asymm _ _ hl1] at hl2; exact absurd hl2 (by simp)
        · exact hl2.symm
      · exact hl1

/-- Sorting the serialized entries of an object by key (keys are unique in a
Python dictionary, so sorting the pairs is sorting by key). -/
def sortPairs (l : List (String × String)) : List (String × String) :=
  l.insertionSort pairLE

/-- Serialization of one scalar JSON value as by json.dumps.  The
parameter bags the library hashes are flat dictionaries of scalars, so the
value type stops at the scalars; a nested container would serialize its
own children recursively with the same rules. -/
def jserialize : JVal → String
| .jnull => "null"
| .jbool b => cond b "true" "false"
| .jnum n => toString n
| .jstr s => jstrLit s

/-- Serialization of a dictionary as by json.dumps with sort_keys=True and
the default separators (a comma-space between items, a colon-space after a
key); the keys are emitted in sorted order. -/
def dumpsObj (l : List (String × JVal)) : String :=
  "\x7b" ++
    String.intercalate ", "
      ((sortPairs (l.map (fun p => (p.1, jserialize p.2)))).map
        (fun p => jstrLit p.1 ++ ": " ++ p.2))
    ++ "\x7d"

/-- UTF-8 encoding of the serialized text: with ensure_ascii every character
of the output is ASCII, so the bytes are the character codes. -/
def strBytes (s : String) : List Nat :=
  s.data.map Char.toNat

/-! ### MD5 (RFC 1321), over byte lists, words as naturals reduced mod 2^32 -/

/-- Reduction to a 32-bit word. -/
def w32 (n : Nat) : Nat := n % 4294967296

/-- Left rotation of a 32-bit word. -/
def rotl32 (x n : Nat) : Nat := w32 ((x <<< n) ||| (x >>> (32 - n)))

/-- The sixty-four sine-derived constants of MD5. -/
def md5K : List Nat :=
  [0xd76aa478, 0xe8c7b756, 0x242070db, 0xc1bdceee,
   0xf57c0faf, 0x4787c62a, 0xa8304613, 0xfd469501,
   0x698098d8, 0x8b44f7af, 0xffff5bb1, 0x895cd7be,
   0x6b901122, 0xfd987193, 0xa679438e, 0x49b40821,
   0xf61e2562, 0xc040b340, 0x265e5a51, 0xe9b6c7aa,
   0xd62f105d, 0x02441453, 0xd8a1e681, 0xe7d3fbc8,
   0x21e1cde6, 0xc33707d6, 0xf4d50d87, 0x455a14ed,
   0xa9e3e905, 0xfcefa3f8, 0x676f02d9, 0x8d2a4c8a,
   0xfffa3942, 0x8771f681, 0x6d9d6122, 0xfde5380c,
   0xa4beea44, 0x4bdecfa9, 0xf6bb4b60, 0xbebfbc70,
   0x289b7ec6, 0xeaa127fa, 0xd4ef3085, 0x04881d05,
   0xd9d4d039, 0xe6db99e5, 0x1fa27cf8, 0xc4ac5665,
   0xf4292244, 0x432aff97, 0xab9423a7, 0xfc93a039,
   0x655b59c3, 0x8f0ccc92, 0xffeff47d, 0x85845dd1,
   0x6fa87e4f, 0xfe2ce6e0, 0xa3014314, 0x4e0811a1,
   0xf7537e82, 0xbd3af235, 0x2ad7d2bb, 0xeb86d391]

/-- The per-round left-rotation amounts of MD5. -/
def md5S : List Nat :=
  [7, 12, 17, 22, 7, 12, 17, 22, 7, 12, 17, 22, 7, 12, 17, 22,
   5, 9, 14, 20, 5, 9, 14, 20, 5, 9, 14, 20, 5, 9, 14, 20,
   4, 11, 16, 23, 4, 11, 16, 23, 4, 11, 16, 23, 4, 11, 16, 23,
   6, 10, 15, 21, 6, 10, 15, 21, 6, 10, 15, 21, 6, 10, 15, 21]

/-- One of the sixty-four MD5 operations; `M` gives the sixteen message
words of the current block. -/
def md5Step (M : Nat → Nat) (st : Nat × Nat × Nat × Nat) (i : Nat) :
    Nat × Nat × Nat × Nat :=
  let a := st.1; let b := st.2.1; let c := st.2.2.1; let d := st.2.2.2
  let fg : Nat × Nat :=
    if i < 16 then ((b &&& c) ||| ((b ^^^ 0xffffffff) &&& d), i)
    else if i < 32 then ((d &&& b) ||| ((d ^^^ 0xffffffff) &&& c), (5 * i + 1) % 16)
    else if i < 48 then (b ^^^ c ^^^ d, (3 * i + 5) % 16)
    else (c ^^^ (b ||| (d ^^^ 0xffffffff)), (7 * i) % 16)
  let tmp := w32 (a + fg.1 + md5K.getD i 0 + M fg.2)
  (d, w32 (b + rotl32 tmp (md5S.getD i 0)), b, c)

/-- Compression of one 64-byte block. -/
def md5Block (st : Nat × Nat × Nat × Nat) (block : List Nat) :
    Nat × Nat × Nat × Nat :=
  let M := fun (g : Nat) =>
    block.getD (4 * g) 0 + 256 * block.getD (4 * g + 1) 0 +
      65536 * block.getD (4 * g + 2) 0 + 16777216 * block.getD (4 * g + 3) 0
  let r := (List.range 64).foldl (md5Step M) st
  (w32 (st.1 + r.1), w32 (st.2.1 + r.2.1), w32 (st.2.2.1 + r.2.2.1),
   w32 (st.2.2.2 + r.2.2.2))

/-- A 32-bit word as four little-endian bytes. -/
def toLE4 (x : Nat) : List Nat :=
  [x % 256, x / 256 % 256, x / 65536 % 256, x / 16777216 % 256]

/-- MD5 padding: a 0x80 byte, zeros up to 56 mod 64, then the bit length
as a 64-bit little-endian quantity. -/
def md5Pad (msg : List Nat) : List Nat :=
  let len := msg.length
  let z := (120 - (len + 1) % 64) % 64
  let bits := (8 * len) % 18446744073709551616
  msg ++ [0x80] ++ List.replicate z 0 ++
    [bits % 256, bits / 256 % 256, bits / 65536 % 256, bits / 16777216 % 256,
     bits / 4294967296 % 256, bits / 1099511627776 % 256,
     bits / 281474976710656 % 256, bits / 72057594037927936 % 256]

/-- Splitting a padded message into 64-byte blocks.  The fuel argument
(instantiated with the list length, an upper bound on the number of
blocks) makes the recursion structural, so that the kernel can evaluate
the digest of a concrete message. -/
def md5ChunksGo : Nat → List Nat → List (List Nat)
| _, [] => []
| 0, _ :: _ => []
| fuel + 1, b :: rest =>
    ((b :: rest).take 64) :: md5ChunksGo fuel ((b :: rest).drop 64)

/-- Splitting a padded message into 64-byte blocks. -/
def md5Chunks (l : List Nat) : List (List Nat) :=
  md5ChunksGo l.length l

/-- The sixteen digest bytes of a byte message. -/
def md5Bytes (msg : List Nat) : List Nat :=
  let st := (md5Chunks (md5Pad msg)).foldl md5Block
    (0x67452301, 0xefcdab89, 0x98badcfe, 0x10325476)
  toLE4 st.1 ++ toLE4 st.2.1 ++ toLE4 st.2.2.1 ++ toLE4 st.2.2.2

/-- One lowercase hex digit. -/
def hexDigit (k : Nat) : Char :=
  if k < 10 then Char.ofNat (48 + k) else Char.ofNat (87 + k)

/-- A byte as two lowercase hex digits. -/
def hexByte (b : Nat) : String :=
  String.mk [hexDigit (b / 16), hexDigit (b % 16)]

/-- The hexdigest of the MD5 of a byte message. -/
def md5hex (msg : List Nat) : String :=
  String.join ((md5Bytes msg).map hexByte)

/-! ### `hashParams` itself -/

/-- The mapping of the Python expression written as params merged with the
binding of key "idExo" to the exercise id inside braces: every entry of
`params` except a caller-supplied "idExo" entry, plus the binding of
"idExo" to `exerciseId`.  (Python keeps an overridden key at its original
position, but the position is irrelevant because serialization sorts the
keys.) -/
def mergeIdExo (params : List (String × JVal)) (exerciseId : String) :
    List (String × JVal) :=
  (params.filter (fun p => p.1 ≠ "idExo")) ++ [("idExo", JVal.jstr exerciseId)]

/-- `hashParams(params, exerciseId)` from the source: MD5 hexdigest of the
sorted-keys JSON serialization of the parameter dictionary with "idExo"
bound to the exercise id. -/
def hashParams (params : List (String × JVal)) (exerciseId : String) : String :=
  md5hex (strBytes (dumpsObj (mergeIdExo params exerciseId)))

/-! ### The shared state of the navigation and grading tracker

The module operates on globals injected by the sandbox runtime
(`exerciseGroups`, `exercisesMeta`, `navigation`, `savedVariables`,
`exercisesVariables`) and on its own module-level globals
(`nextExerciseId`, `nextParams`, `activityGrade`).  All of them are
collected into one explicit state record; read-only helpers receive just
the fields the source reads through the corresponding global. -/

/-- One exercise descriptor inside a group; only the "id" field is ever
read by the navigation code. -/
structure Exercise where
  id : String
deriving Repr, DecidableEq

/-- One value of `exerciseGroups`: a dictionary holding the ordered
"exercises" list. -/
structure ExGroup where
  exercises : List Exercise
deriving Repr, DecidableEq

/-- One value of `exercisesMeta`: attempt counter and ordered grade list. -/
structure ExerciseMeta where
  attempts : Nat
  grades : List Int
deriving Repr, DecidableEq

/-- The "current" entry of `navigation`: id and grade of the most recently
played exercise. -/
structure Current where
  id : String
  grade : Option Int
deriving Repr, DecidableEq

/-- The `navigation` dictionary: the current pointer (absent if no exercise
was played) and the terminated flag. -/
structure Navigation where
  current : Option Current
  terminated : Bool
deriving Repr, DecidableEq

/-- Association-list type standing for a string-keyed Python dictionary in
insertion order. -/
abbrev Dict (β : Type) := List (String × β)

/-- The whole shared state. -/
structure PState where
  exerciseGroups : Dict ExGroup
  exercisesMeta : Dict ExerciseMeta
  navigation : Navigation
  savedVariables : Dict JVal
  exercisesVariables : Dict (Dict JVal)
  activityGrade : Option Int
  nextExerciseId : String
  nextParams : Dict JVal
deriving Repr

/-- The exceptions of the module: its own error taxonomy, the `StopExec`
control signal supplied by the runtime, Python's built-in `ValueError`
(grade validation, empty random ranges), and the built-in lookup failures
`KeyError`/`IndexError`. -/
inductive PError where
| invalidGroup
| invalidExercise
| exerciseVariablesNotEnabled
| valueError
| stopExec
| keyError
| indexError
deriving Repr, DecidableEq

/-- The str() of the value reaching a group-number parameter: an integer
prints as its decimal form, Python's `None` prints as "None" (it reaches
`checkGroupNb` through the default argument of
`isAllExercisesFromGroupPlayed`). -/
def pyStr : Option Int → String
| none => "None"
| some n => toString n

/-! ### Check helpers (NextLib lines 32-74) -/

/-- `checkGroupNb`: raises `InvalidGroupError` when `str(groupNb)` is not a
key of `exerciseGroups`. -/
def checkGroupNb (groups : Dict ExGroup) (groupNb : Option Int) :
    Except PError Unit :=
  if (groups.lookup (pyStr groupNb)).isNone then .error .invalidGroup
  else .ok ()

/-- Subscription of `exerciseGroups`: a missing key raises `KeyError`. -/
def getGroup (groups : Dict ExGroup) (key : String) : Except PError ExGroup :=
  match groups.lookup key with
  | some g => .ok g
  | none => .error .keyError

/-- `checkExerciseNb`: group check, then bounds check of the exercise index
against the group's exercise list. -/
def checkExerciseNb (groups : Dict ExGroup) (groupNb exerciseNb : Int) :
    Except PError Unit :=
  match checkGroupNb groups (some groupNb) with
  | .error e => .error e
  | .ok () =>
    match getGroup groups (pyStr (some groupNb)) with
    | .error e => .error e
    | .ok g =>
      if exerciseNb < 0 ∨ exerciseNb ≥ g.exercises.length then
        .error .invalidExercise
      else
        .ok ()

/-- `CheckExerciseVariables`: raises when the `exercisesVariables` global is
falsy (an empty dictionary). -/
def CheckExerciseVariables (vars : Dict (Dict JVal)) : Except PError Unit :=
  if vars.isEmpty then .error .exerciseVariablesNotEnabled else .ok ()

/-! ### Read-only queries (NextLib lines 113-360, 467-543) -/

/-- `getExerciseId`: validated group/exercise lookup. -/
def getExerciseId (groups : Dict ExGroup) (groupNb exerciseNb : Int) :
    Except PError String :=
  match checkGroupNb groups (some groupNb) with
  | .error e => .error e
  | .ok () =>
    match checkExerciseNb groups groupNb exerciseNb with
    | .error e => .error e
    | .ok () =>
      match getGroup groups (pyStr (some groupNb)) with
      | .error e => .error e
      | .ok g =>
        match g.exercises.get? exerciseNb.toNat with
        | some e => .ok e.id
        | none => .error .indexError

/-- `getExerciseAttempts`: subscription of `exercisesMeta` (a missing id
raises `KeyError`), then the attempt counter. -/
def getExerciseAttempts (meta : Dict ExerciseMeta) (exerciseId : String) :
    Except PError Nat :=
  match meta.lookup exerciseId with
  | some m => .ok m.attempts
  | none => .error .keyError

/-- `getGroupsCount`: the number of keys of `exerciseGroups`, minus one when
the reserved "-1" key of generated exercises is present. -/
def getGroupsCount (groups : Dict ExGroup) : Nat :=
  if (groups.lookup "-1").isSome then groups.length - 1 else groups.length

/-- `getGroupExercisesCount`: validated length of a group's exercise list. -/
def getGroupExercisesCount (groups : Dict ExGroup) (groupNb : Int) :
    Except PError Nat :=
  match checkGroupNb groups (some groupNb) with
  | .error e => .error e
  | .ok () =>
    match getGroup groups (pyStr (some groupNb)) with
    | .error e => .error e
    | .ok g => .ok g.exercises.length

/-- `getPreviousExerciseId`: the id of `navigation["current"]`, absent when
no exercise is current. -/
def getPreviousExerciseId (nav : Navigation) : Option String :=
  nav.current.map (fun c => c.id)

/-- `isPlayed`: strictly positive attempt counter. -/
def isPlayed (meta : Dict ExerciseMeta) (exerciseId : String) :
    Except PError Bool :=
  match getExerciseAttempts meta exerciseId with
  | .error e => .error e
  | .ok a => .ok (a > 0)

/-- `getExerciseGrades`: subscription of `exercisesMeta`, then the grade
list. -/
def getExerciseGrades (meta : Dict ExerciseMeta) (exerciseId : String) :
    Except PError (List Int) :=
  match meta.lookup exerciseId with
  | some m => .ok m.grades
  | none => .error .keyError

/-- `getExerciseLastGrade`: the last grade, absent when the list is empty. -/
def getExerciseLastGrade (meta : Dict ExerciseMeta) (exerciseId : String) :
    Except PError (Option Int) :=
  match getExerciseGrades meta exerciseId with
  | .error e => .error e
  | .ok gs => .ok gs.getLast?

/-- `getRandomGroupExerciseNb`: group check, then a uniform draw from the
group's index range.  The draw of `random.randint(0, n-1)` is modelled by
an explicit oracle argument `r` taken modulo `n`; Python raises
`ValueError` when the range is empty. -/
def getRandomGroupExerciseNb (groups : Dict ExGroup) (groupNb : Int)
    (r : Nat) : Except PError Nat :=
  match checkGroupNb groups (some groupNb) with
  | .error e => .error e
  | .ok () =>
    match getGroupExercisesCount groups groupNb with
    | .error e => .error e
    | .ok n => if n = 0 then .error .valueError else .ok (r % n)

/-- `getPreviousGroupNumber`: scans the groups in insertion order for the
one containing the current exercise's id; `int(groupNb)` on a key that is
not a decimal integer raises `ValueError`. -/
def findGroupOf : Dict ExGroup → String → Except PError (Option Int)
| [], _ => .ok none
| (k, g) :: rest, exerciseId =>
    if g.exercises.any (fun e => e.id = exerciseId) then
      match k.toInt? with
      | some n => .ok (some n)
      | none => .error .valueError
    else findGroupOf rest exerciseId

/-- `getPreviousGroupNumber` over the whole state view it reads. -/
def getPreviousGroupNumber (groups : Dict ExGroup) (nav : Navigation) :
    Except PError (Option Int) :=
  match nav.current with
  | none => .ok none
  | some cur => findGroupOf groups cur.id

/-- Sequential `all(isPlayed(exercise["id"]) for exercise in exercises)`:
stops at the first unplayed exercise; a missing meta entry raises
`KeyError` at the point it is reached. -/
def allPlayedScan (meta : Dict ExerciseMeta) : List Exercise →
    Except PError Bool
| [] => .ok true
| e :: rest =>
    match isPlayed meta e.id with
    | .error err => .error err
    | .ok true => allPlayedScan meta rest
    | .ok false => .ok false

/-- The body of `isAllExercisesFromGroupPlayed` applied to an explicit group
argument (the default-argument plumbing is modelled separately, see
`isAllExercisesFromGroupPlayed`). -/
def isAllExercisesFromGroupPlayedBody (groups : Dict ExGroup)
    (meta : Dict ExerciseMeta) (groupNb : Option Int) : Except PError Bool :=
  match checkGroupNb groups groupNb with
  | .error e => .error e
  | .ok () =>
    match getGroup groups (pyStr groupNb) with
    | .error e => .error e
    | .ok g => allPlayedScan meta g.exercises

/-- `isAllExercisesFromGroupPlayed`, whose default group argument Python
evaluates exactly once, when the `def` statement executes: `sdef` is the
state at module-definition time, `s` the state at call time, and a `none`
argument is a call without the parameter, which uses the default frozen
from `sdef`. -/
def isAllExercisesFromGroupPlayed (sdef s : PState)
    (groupNb : Option (Option Int)) : Except PError Bool :=
  match groupNb with
  | some g => isAllExercisesFromGroupPlayedBody s.exerciseGroups s.exercisesMeta g
  | none =>
    match getPreviousGroupNumber sdef.exerciseGroups sdef.navigation with
    | .error e => .error e
    | .ok d => isAllExercisesFromGroupPlayedBody s.exerciseGroups s.exercisesMeta d

/-- Sequential `any(isPlayed(exercise["id"]) for exercise in exercises)`:
stops at the first played exercise. -/
def anyPlayedScan (meta : Dict ExerciseMeta) : List Exercise →
    Except PError Bool
| [] => .ok false
| e :: rest =>
    match isPlayed meta e.id with
    | .error err => .error err
    | .ok true => .ok true
    | .ok false => anyPlayedScan meta rest

/-- `isOneExerciseFromGroupPlayed`. -/
def isOneExerciseFromGroupPlayed (groups : Dict ExGroup)
    (meta : Dict ExerciseMeta) (groupNb : Int) : Except PError Bool :=
  match checkGroupNb groups (some groupNb) with
  | .error e => .error e
  | .ok () =>
    match getGroup groups (pyStr (some groupNb)) with
    | .error e => .error e
    | .ok g => anyPlayedScan meta g.exercises

/-- `isOneExercisePlayed`: any meta entry with a positive counter. -/
def isOneExercisePlayed (meta : Dict ExerciseMeta) : Bool :=
  meta.any (fun p => p.2.attempts > 0)

/-- `isAllExercisesPlayed`: no meta entry with a zero counter. -/
def isAllExercisesPlayed (meta : Dict ExerciseMeta) : Bool :=
  meta.all (fun p => ¬ p.2.attempts = 0)

/-! ### Commands (state transitions, NextLib lines 82-110 and 277-514)

A command returns the outcome of the call (normal return, or the raised
exception) together with the state after the call; Python keeps every
mutation performed before a raise. -/

/-- The result of one command call. -/
abbrev CmdResult := Except PError Unit × PState

/-- Truthiness of the optional `params` argument: `None` and the empty
dictionary are falsy. -/
def paramsTruthy : Option (Dict JVal) → Bool
| none => false
| some l => ¬ l.isEmpty

/-- `playExercise`: records the pending exercise id (and, when truthy, the
parameter bag) in the module-level globals declared with `global`, then
raises `StopExec`. -/
def playExercise (exerciseId : String) (params : Option (Dict JVal))
    (s : PState) : CmdResult :=
  let s1 := { s with nextExerciseId := exerciseId }
  let s2 :=
    match params with
    | some l => if ¬ l.isEmpty then { s1 with nextParams := l } else s1
    | none => s1
  (.error .stopExec, s2)

/-- `stopActivity`: sets `navigation["terminated"]` and raises `StopExec`.
The statement assigning the empty string to `nextExerciseId` binds a
function-local name — `stopActivity` has no `global nextExerciseId`
declaration (compare `playExercise`, lines 93-94 of the source) — so the
module-level pending id is left untouched. -/
def stopActivity (s : PState) : CmdResult :=
  let s1 := { s with navigation := { s.navigation with terminated := true } }
  (.error .stopExec, s1)

/-- Truthiness of the previous-exercise id: `None` and the empty string are
falsy. -/
def idTruthy : Option String → Bool
| none => false
| some p => ¬ p.isEmpty

/-- `playPrevious`: plays the current exercise id when it is truthy. -/
def playPrevious (s : PState) : CmdResult :=
  match getPreviousExerciseId s.navigation with
  | none => (.ok (), s)
  | some p =>
    if p.isEmpty then (.ok (), s)
    else playExercise p none s

/-- `playPreviousIfUnplayed`: plays the current exercise id when it is
truthy and its attempt counter is zero. -/
def playPreviousIfUnplayed (s : PState) : CmdResult :=
  match getPreviousExerciseId s.navigation with
  | none => (.ok (), s)
  | some p =>
    if p.isEmpty then (.ok (), s)
    else
      match getExerciseAttempts s.exercisesMeta p with
      | .error e => (.error e, s)
      | .ok a => if a = 0 then playExercise p none s else (.ok (), s)

/-- `playAnyFromGroup`: group check; if some exercise of the group is
played, returns; otherwise plays a random exercise of the group (`r` is
the random oracle). -/
def playAnyFromGroup (groupNb : Int) (r : Nat) (s : PState) : CmdResult :=
  match checkGroupNb s.exerciseGroups (some groupNb) with
  | .error e => (.error e, s)
  | .ok () =>
    match getGroup s.exerciseGroups (pyStr (some groupNb)) with
    | .error e => (.error e, s)
    | .ok g =>
      match anyPlayedScan s.exercisesMeta g.exercises with
      | .error e => (.error e, s)
      | .ok true => (.ok (), s)
      | .ok false =>
        match getRandomGroupExerciseNb s.exerciseGroups groupNb r with
        | .error e => (.error e, s)
        | .ok n =>
          match g.exercises.get? n with
          | some e => playExercise e.id none s
          | none => (.error .indexError, s)

/-- The list comprehension of the unplayed exercises of a group, evaluated
left to right (a missing meta entry raises `KeyError` where reached). -/
def unplayedFilter (meta : Dict ExerciseMeta) : List Exercise →
    Except PError (List Exercise)
| [] => .ok []
| e :: rest =>
    match isPlayed meta e.id with
    | .error err => .error err
    | .ok p =>
      match unplayedFilter meta rest with
      | .error err => .error err
      | .ok tail => .ok (if p then tail else e :: tail)

/-- `playAllFromGroup`: group check; collects the unplayed exercises of the
group; no-op when there are none; otherwise plays the first (or, with
`randomOrder`, a random one drawn through oracle `r`). -/
def playAllFromGroup (groupNb : Int) (randomOrder : Bool) (r : Nat)
    (s : PState) : CmdResult :=
  match checkGroupNb s.exerciseGroups (some groupNb) with
  | .error e => (.error e, s)
  | .ok () =>
    match getGroup s.exerciseGroups (pyStr (some groupNb)) with
    | .error e => (.error e, s)
    | .ok g =>
      match unplayedFilter s.exercisesMeta g.exercises with
      | .error e => (.error e, s)
      | .ok unplayed =>
        match unplayed with
        | [] => (.ok (), s)
        | e0 :: rest =>
          if randomOrder then
            match (e0 :: rest).get? (r % (e0 :: rest).length) with
            | some e => playExercise e.id none s
            | none => (.error .indexError, s)
          else playExercise e0.id none s

/-- The first exercise of a list with a zero attempt counter (the inner
loop of `playFirstUnplayedExercise`), scanning left to right. -/
def firstUnplayedInList (meta : Dict ExerciseMeta) : List Exercise →
    Except PError (Option Exercise)
| [] => .ok none
| e :: rest =>
    match isPlayed meta e.id with
    | .error err => .error err
    | .ok true => firstUnplayedInList meta rest
    | .ok false => .ok (some e)

/-- The double loop of `playFirstUnplayedExercise`: groups `0` to
`getGroupsCount() - 1` in order; a missing group key raises `KeyError`. -/
def firstUnplayedScan (groups : Dict ExGroup) (meta : Dict ExerciseMeta) :
    List Nat → Except PError (Option Exercise)
| [] => .ok none
| g :: gs =>
    match groups.lookup (toString g) with
    | none => .error .keyError
    | some grp =>
      match firstUnplayedInList meta grp.exercises with
      | .error err => .error err
      | .ok (some e) => .ok (some e)
      | .ok none => firstUnplayedScan groups meta gs

/-- `playFirstUnplayedExercise`: plays the first unplayed exercise in
group-then-exercise order; returns normally when every exercise is
played. -/
def playFirstUnplayedExercise (s : PState) : CmdResult :=
  match firstUnplayedScan s.exerciseGroups s.exercisesMeta
      (List.range (getGroupsCount s.exerciseGroups)) with
  | .error e => (.error e, s)
  | .ok (some e) => playExercise e.id none s
  | .ok none => (.ok (), s)

/-- The inner loop of the first scan of `playNextUnplayedExercise`: with
the found flag set, the first unplayed exercise is played; the flag is set
when the current id is met; `isPlayed` is only evaluated once the flag is
set (the Python conjunction short-circuits).  Returns the exercise to play
(if any) and the flag after the list. -/
def scanNext (meta : Dict ExerciseMeta) (cur : Option String) :
    Bool → List Exercise → Except PError (Option Exercise × Bool)
| found, [] => .ok (none, found)
| found, e :: rest =>
    if found then
      match isPlayed meta e.id with
      | .error err => .error err
      | .ok true => scanNext meta cur true rest
      | .ok false => .ok (some e, true)
    else
      scanNext meta cur (decide (some e.id = cur)) rest

/-- The outer loop of the first scan of `playNextUnplayedExercise` over the
group indices, threading the found flag from group to group. -/
def scanNextGroups (groups : Dict ExGroup) (meta : Dict ExerciseMeta)
    (cur : Option String) : Bool → List Nat → Except PError (Option Exercise)
| _, [] => .ok none
| found, g :: gs =>
    match groups.lookup (toString g) with
    | none => .error .keyError
    | some grp =>
      match scanNext meta cur found grp.exercises with
      | .error err => .error err
      | .ok (some e, _) => .ok (some e)
      | .ok (none, found') => scanNextGroups groups meta cur found' gs

/-- `playNextUnplayedExercise(loop)`: scans all groups for the first
unplayed exercise strictly after the current exercise in
group-then-exercise order and plays it; when none is found and `loop` is
true, re-scans from the start and plays the globally first unplayed
exercise; otherwise returns normally. -/
def playNextUnplayedExercise (loop : Bool) (s : PState) : CmdResult :=
  let cur := s.navigation.current.map (fun c => c.id)
  match scanNextGroups s.exerciseGroups s.exercisesMeta cur false
      (List.range (getGroupsCount s.exerciseGroups)) with
  | .error e => (.error e, s)
  | .ok (some e) => playExercise e.id none s
  | .ok none =>
    if loop then
      match firstUnplayedScan s.exerciseGroups s.exercisesMeta
          (List.range (getGroupsCount s.exerciseGroups)) with
      | .error e => (.error e, s)
      | .ok (some e) => playExercise e.id none s
      | .ok none => (.ok (), s)
    else (.ok (), s)

/-- `playIfUnplayed`: plays the given exercise when its attempt counter is
zero. -/
def playIfUnplayed (exerciseId : String) (params : Option (Dict JVal))
    (s : PState) : CmdResult :=
  match isPlayed s.exercisesMeta exerciseId with
  | .error e => (.error e, s)
  | .ok true => (.ok (), s)
  | .ok false => playExercise exerciseId params s

/-! ### Grading (NextLib lines 552-595) -/

/-- `setActivityGrade`: calls the caller-supplied zero-argument aggregation
strategy (the specification requires it to be free of side effects, so it
is modelled as a pure function of the state it may read), validates the
result against 0..100, and stores it in the `activityGrade` global;
an out-of-range result raises `ValueError` before any mutation. -/
def setActivityGrade (strategy : PState → Int) (s : PState) : CmdResult :=
  let total := strategy s
  if total < 0 ∨ total > 100 then (.error .valueError, s)
  else (.ok (), { s with activityGrade := some total })

/-- `average_grade_strategy`: the last grades of the played exercises (in
dictionary iteration order; iterating the keys of `exercisesMeta` and
subscripting with each key visits exactly the entry pairs, since the keys
of a dictionary are unique), without the absent ones, then the floor
division of their sum by their count, and zero when the list is empty. -/
def average_grade_strategy (s : PState) : Int :=
  let played_grades :=
    (s.exercisesMeta.filter (fun p => p.2.attempts > 0)).map
      (fun p => p.2.grades.getLast?)
  let played_grades := played_grades.filterMap id
  if played_grades.isEmpty then 0
  else (played_grades.foldl (· + ·) 0).fdiv played_grades.length

/-! ### Per-exercise variables (NextLib lines 643-675) -/

/-- `getExerciseVariable`: feature gate, then subscription of
`exercisesVariables` (`KeyError` on an unknown exercise id) and a
defaulting lookup of the variable name. -/
def getExerciseVariable (vars : Dict (Dict JVal))
    (exerciseId variableName : String) : Except PError (Option JVal) :=
  match CheckExerciseVariables vars with
  | .error e => .error e
  | .ok () =>
    match vars.lookup exerciseId with
    | none => .error .keyError
    | some bag => .ok (bag.lookup variableName)

/-- `getExerciseAllVariables`: feature gate, then subscription of
`exercisesVariables`. -/
def getExerciseAllVariables (vars : Dict (Dict JVal))
    (exerciseId : String) : Except PError (Dict JVal) :=
  match CheckExerciseVariables vars with
  | .error e => .error e
  | .ok () =>
    match vars.lookup exerciseId with
    | none => .error .keyError
    | some bag => .ok bag

/-- `getRandomExerciseFromGroup`: group check, then the id of a random
exercise of the group (`r` is the random oracle). -/
def getRandomExerciseFromGroup (groups : Dict ExGroup) (groupNb : Int)
    (r : Nat) : Except PError String :=
  match checkGroupNb groups (some groupNb) with
  | .error e => .error e
  | .ok () =>
    match getRandomGroupExerciseNb groups groupNb r with
    | .error e => .error e
    | .ok n => getExerciseId groups groupNb n

/-! ### Concrete states used as witnesses and counterexamples -/

/-- A small activity: group "0" holds exercise a (unplayed), group "1"
holds exercises b and c (both played once); c is the current exercise. -/
def sBase : PState :=
  { exerciseGroups := [("0", ⟨[⟨"a"⟩]⟩), ("1", ⟨[⟨"b"⟩, ⟨"c"⟩]⟩)]
    exercisesMeta := [("a", ⟨0, []⟩), ("b", ⟨1, [80]⟩), ("c", ⟨1, [90]⟩)]
    navigation := { current := some ⟨"c", some 90⟩, terminated := false }
    savedVariables := []
    exercisesVariables := []
    activityGrade := none
    nextExerciseId := ""
    nextParams := [] }

/-- The state with flag `b` written into `navigation["terminated"]`. -/
def withTerm (b : Bool) (s : PState) : PState :=
  { s with navigation := { s.navigation with terminated := b } }

@[simp] theorem withTerm_exerciseGroups (b : Bool) (s : PState) :
    (withTerm b s).exerciseGroups = s.exerciseGroups := rfl

@[simp] theorem withTerm_exercisesMeta (b : Bool) (s : PState) :
    (withTerm b s).exercisesMeta = s.exercisesMeta := rfl

@[simp] theorem withTerm_current (b : Bool) (s : PState) :
    (withTerm b s).navigation.current = s.navigation.current := rfl

@[simp] theorem withTerm_terminated (b : Bool) (s : PState) :
    (withTerm b s).navigation.terminated = b := rfl

/-! ### C1 -/

/-- C1: the claim says `stopActivity` clears the process-wide pending
exercise id.  The code sets `navigation["terminated"]` and raises the stop
signal, but the statement meant to clear the pending id assigns a
function-local name (the `global nextExerciseId` declaration present in
`playExercise` is missing in `stopActivity`), so on a state whose pending
id is "ex1" the pending id is still "ex1" after the call. -/
theorem stopActivity_keeps_pending_id :
    (stopActivity { sBase with nextExerciseId := "ex1" }).1 =
        .error .stopExec ∧
      (stopActivity { sBase with nextExerciseId := "ex1" }).2.navigation.terminated
        = true ∧
      (stopActivity { sBase with nextExerciseId := "ex1" }).2.nextExerciseId
        = "ex1" ∧
      ¬ (stopActivity { sBase with nextExerciseId := "ex1" }).2.nextExerciseId
        = "" :=
  ⟨rfl, rfl, rfl, by decide⟩

/-! ### C2 -/

/-- Dispatch lemma used by every command: `playExercise` commutes with
writing the terminated flag, because it reads nothing from the state. -/
theorem playExercise_withTerm (exerciseId : String)
    (params : Option (Dict JVal)) (b : Bool) (s : PState) :
    playExercise exerciseId params (withTerm b s) =
      ((playExercise exerciseId params s).1,
        withTerm b (playExercise exerciseId params s).2) := by
  unfold playExercise withTerm
  cases params with
  | none => rfl
  | some l => by_cases h : l.isEmpty <;> simp [h]

/-- `playPrevious` commutes with the terminated flag. -/
theorem playPrevious_withTerm (b : Bool) (s : PState) :
    playPrevious (withTerm b s) =
      ((playPrevious s).1, withTerm b (playPrevious s).2) := by
  simp only [playPrevious, getPreviousExerciseId, withTerm_current]
  cases h : s.navigation.current.map (fun c => c.id) with
  | none => rfl
  | some p =>
    by_cases hp : p.isEmpty <;> simp [hp, playExercise_withTerm]

/-- `playPreviousIfUnplayed` commutes with the terminated flag. -/
theorem playPreviousIfUnplayed_withTerm (b : Bool) (s : PState) :
    playPreviousIfUnplayed (withTerm b s) =
      ((playPreviousIfUnplayed s).1, withTerm b (playPreviousIfUnplayed s).2) := by
  simp only [playPreviousIfUnplayed, getPreviousExerciseId, withTerm_current,
    withTerm_exercisesMeta]
  cases h : s.navigation.current.map (fun c => c.id) with
  | none => rfl
  | some p =>
    by_cases hp : p.isEmpty
    · simp [hp]
    · simp only [hp, if_false, if_neg, ite_false]
      cases ha : getExerciseAttempts s.exercisesMeta p with
      | error e => simp [ha]
      | ok a =>
        by_cases h0 : a = 0 <;> simp [ha, h0, playExercise_withTerm]

/-- `playAnyFromGroup` commutes with the terminated flag. -/
theorem playAnyFromGroup_withTerm (groupNb : Int) (r : Nat) (b : Bool)
    (s : PState) :
    playAnyFromGroup groupNb r (withTerm b s) =
      ((playAnyFromGroup groupNb r s).1,
        withTerm b (playAnyFromGroup groupNb r s).2) := by
  simp only [playAnyFromGroup, withTerm_exerciseGroups, withTerm_exercisesMeta]
  cases h1 : checkGroupNb s.exerciseGroups (some groupNb) with
  | error e => rfl
  | ok u =>
    dsimp only
    cases h2 : getGroup s.exerciseGroups (pyStr (some groupNb)) with
    | error e => rfl
    | ok g =>
      dsimp only
      cases h3 : anyPlayedScan s.exercisesMeta g.exercises with
      | error e => rfl
      | ok played =>
        cases played with
        | true => rfl
        | false =>
          dsimp only
          cases h4 : getRandomGroupExerciseNb s.exerciseGroups groupNb r with
          | error e => rfl
          | ok n =>
            dsimp only
            cases h5 : g.exercises.get? n with
            | none => rfl
            | some e => exact playExercise_withTerm e.id none b s

/-- `playAllFromGroup` commutes with the terminated flag. -/
theorem playAllFromGroup_withTerm (groupNb : Int) (randomOrder : Bool)
    (r : Nat) (b : Bool) (s : PState) :
    playAllFromGroup groupNb randomOrder r (withTerm b s) =
      ((playAllFromGroup groupNb randomOrder r s).1,
        withTerm b (playAllFromGroup groupNb randomOrder r s).2) := by
  simp only [playAllFromGroup, withTerm_exerciseGroups, withTerm_exercisesMeta]
  cases h1 : checkGroupNb s.exerciseGroups (some groupNb) with
  | error e => rfl
  | ok u =>
    dsimp only
    cases h2 : getGroup s.exerciseGroups (pyStr (some groupNb)) with
    | error e => rfl
    | ok g =>
      dsimp only
      cases h3 : unplayedFilter s.exercisesMeta g.exercises with
      | error e => rfl
      | ok unplayed =>
        cases unplayed with
        | nil => rfl
        | cons e0 rest =>
          dsimp only
          by_cases hro : randomOrder
          · simp only [hro, if_true, ite_true]
            cases h4 : (e0 :: rest).get? (r % (e0 :: rest).length) with
            | none => rfl
            | some e => exact playExercise_withTerm e.id none b s
          · simp only [hro, if_false, ite_false]
            exact playExercise_withTerm e0.id none b s

/-- `playFirstUnplayedExercise` commutes with the terminated flag. -/
theorem playFirstUnplayedExercise_withTerm (b : Bool) (s : PState) :
    playFirstUnplayedExercise (withTerm b s) =
      ((playFirstUnplayedExercise s).1,
        withTerm b (playFirstUnplayedExercise s).2) := by
  simp only [playFirstUnplayedExercise, withTerm_exerciseGroups,
    withTerm_exercisesMeta]
  cases h1 : firstUnplayedScan s.exerciseGroups s.exercisesMeta
      (List.range (getGroupsCount s.exerciseGroups)) with
  | error e => rfl
  | ok o =>
    cases o with
    | none => rfl
    | some e => exact playExercise_withTerm e.id none b s

/-- `playNextUnplayedExercise` commutes with the terminated flag. -/
theorem playNextUnplayedExercise_withTerm (loop : Bool) (b : Bool)
    (s : PState) :
    playNextUnplayedExercise loop (withTerm b s) =
      ((playNextUnplayedExercise loop s).1,
        withTerm b (playNextUnplayedExercise loop s).2) := by
  simp only [playNextUnplayedExercise, withTerm_exerciseGroups,
    withTerm_exercisesMeta, withTerm_current]
  cases h1 : scanNextGroups s.exerciseGroups s.exercisesMeta
      (s.navigation.current.map (fun c => c.id)) false
      (List.range (getGroupsCount s.exerciseGroups)) with
  | error e => rfl
  | ok o =>
    cases o with
    | some e => exact playExercise_withTerm e.id none b s
    | none =>
      by_cases hl : loop
      · simp only [hl, if_true, ite_true]
        cases h2 : firstUnplayedScan s.exerciseGroups s.exercisesMeta
            (List.range (getGroupsCount s.exerciseGroups)) with
        | error e => rfl
        | ok o2 =>
          cases o2 with
          | none => rfl
          | some e => exact playExercise_withTerm e.id none b s
      · simp [hl]

/-- `playIfUnplayed` commutes with the terminated flag. -/
theorem playIfUnplayed_withTerm (exerciseId : String)
    (params : Option (Dict JVal)) (b : Bool) (s : PState) :
    playIfUnplayed exerciseId params (withTerm b s) =
      ((playIfUnplayed exerciseId params s).1,
        withTerm b (playIfUnplayed exerciseId params s).2) := by
  simp only [playIfUnplayed, withTerm_exercisesMeta]
  cases h1 : isPlayed s.exercisesMeta exerciseId with
  | error e => rfl
  | ok p =>
    cases p with
    | true => rfl
    | false => exact playExercise_withTerm exerciseId params b s

/-- C2: the claim says TERMINATED is absorbing, every command being a
no-op there.  Counterexample: on a terminated state, `playExercise`
still overwrites the pending exercise id and raises the stop signal —
no command consults the flag at all. -/
theorem terminated_not_absorbing :
    (withTerm true sBase).navigation.terminated = true ∧
      (playExercise "e1" none (withTerm true sBase)).1 = .error .stopExec ∧
      (playExercise "e1" none (withTerm true sBase)).2.nextExerciseId = "e1" ∧
      ¬ (playExercise "e1" none (withTerm true sBase)).2.nextExerciseId
        = (withTerm true sBase).nextExerciseId :=
  ⟨rfl, rfl, rfl, by decide⟩

/-- C2 amended: no navigation command reads the terminated flag; with the
flag forced to any value `b` (in particular `true`, the TERMINATED state),
every command returns the same outcome and performs the same state change
as on the underlying state, apart from the flag itself — so TERMINATED is
not absorbing and commands are not no-ops there. -/
theorem commands_ignore_terminated (b : Bool) (s : PState)
    (exerciseId : String) (params : Option (Dict JVal)) (groupNb : Int)
    (r : Nat) (randomOrder loop : Bool) :
    playExercise exerciseId params (withTerm b s) =
        ((playExercise exerciseId params s).1,
          withTerm b (playExercise exerciseId params s).2) ∧
      playPrevious (withTerm b s) =
        ((playPrevious s).1, withTerm b (playPrevious s).2) ∧
      playPreviousIfUnplayed (withTerm b s) =
        ((playPreviousIfUnplayed s).1,
          withTerm b (playPreviousIfUnplayed s).2) ∧
      playAnyFromGroup groupNb r (withTerm b s) =
        ((playAnyFromGroup groupNb r s).1,
          withTerm b (playAnyFromGroup groupNb r s).2) ∧
      playAllFromGroup groupNb randomOrder r (withTerm b s) =
        ((playAllFromGroup groupNb randomOrder r s).1,
          withTerm b (playAllFromGroup groupNb randomOrder r s).2) ∧
      playFirstUnplayedExercise (withTerm b s) =
        ((playFirstUnplayedExercise s).1,
          withTerm b (playFirstUnplayedExercise s).2) ∧
      playNextUnplayedExercise loop (withTerm b s) =
        ((playNextUnplayedExercise loop s).1,
          withTerm b (playNextUnplayedExercise loop s).2) ∧
      playIfUnplayed exerciseId params (withTerm b s) =
        ((playIfUnplayed exerciseId params s).1,
          withTerm b (playIfUnplayed exerciseId params s).2) :=
  ⟨playExercise_withTerm _ _ _ _, playPrevious_withTerm _ _,
    playPreviousIfUnplayed_withTerm _ _, playAnyFromGroup_withTerm _ _ _ _,
    playAllFromGroup_withTerm _ _ _ _ _, playFirstUnplayedExercise_withTerm _ _,
    playNextUnplayedExercise_withTerm _ _ _, playIfUnplayed_withTerm _ _ _ _⟩

/-! ### C3 -/

/-- Groups dictionary with the reserved generated-exercises key present. -/
def gRes : Dict ExGroup := [("-1", ⟨[⟨"gen"⟩]⟩), ("0", ⟨[⟨"a"⟩]⟩)]

/-- C3 counterexample: with the reserved key "-1" present in
`exerciseGroups`, a group-indexed query called with index `-1` does not
raise `InvalidGroupError` — `checkGroupNb` tests key membership of
`str(-1)`, which succeeds — contradicting the claim that `-1` raises
`InvalidGroupError` even when the reserved key is present. -/
theorem reserved_key_accepts_negative_index :
    (gRes.lookup "-1").isSome = true ∧
      getGroupExercisesCount gRes (-1) = .ok 1 ∧
      ¬ getGroupExercisesCount gRes (-1) = .error .invalidGroup := by
  refine ⟨rfl, rfl, ?_⟩
  intro h
  rw [show getGroupExercisesCount gRes (-1) = .ok 1 from rfl] at h
  exact Except.noConfusion h

/-- Errors of `getExerciseAttempts` are all `KeyError`. -/
theorem getExerciseAttempts_error {meta : Dict ExerciseMeta} {i : String}
    {e : PError} (h : getExerciseAttempts meta i = .error e) : e = .keyError := by
  unfold getExerciseAttempts at h
  cases hl : meta.lookup i <;> rw [hl] at h
  · exact (Except.error.inj h).symm
  · exact Except.noConfusion h

/-- Errors of `isPlayed` are all `KeyError`. -/
theorem isPlayed_error {meta : Dict ExerciseMeta} {i : String} {e : PError}
    (h : isPlayed meta i = .error e) : e = .keyError := by
  unfold isPlayed at h
  cases ha : getExerciseAttempts meta i <;> rw [ha] at h
  · exact (Except.error.inj h) ▸ getExerciseAttempts_error ha
  · exact Except.noConfusion h

/-- Errors of `anyPlayedScan` are all `KeyError`. -/
theorem anyPlayedScan_error {meta : Dict ExerciseMeta} {e : PError} :
    ∀ {l : List Exercise}, anyPlayedScan meta l = .error e → e = .keyError := by
  intro l
  induction l with
  | nil => intro h; exact Except.noConfusion h
  | cons x rest ih =>
    intro h
    unfold anyPlayedScan at h
    cases hp : isPlayed meta x.id <;> rw [hp] at h
    · exact (Except.error.inj h) ▸ isPlayed_error hp
    · rename_i v
      cases v
      · exact ih h
      · exact Except.noConfusion h

/-- Errors of `allPlayedScan` are all `KeyError`. -/
theorem allPlayedScan_error {meta : Dict ExerciseMeta} {e : PError} :
    ∀ {l : List Exercise}, allPlayedScan meta l = .error e → e = .keyError := by
  intro l
  induction l with
  | nil => intro h; exact Except.noConfusion h
  | cons x rest ih =>
    intro h
    unfold allPlayedScan at h
    cases hp : isPlayed meta x.id <;> rw [hp] at h
    · exact (Except.error.inj h) ▸ isPlayed_error hp
    · rename_i v
      cases v
      · exact Except.noConfusion h
      · exact ih h

/-- Errors of `unplayedFilter` are all `KeyError`. -/
theorem unplayedFilter_error {meta : Dict ExerciseMeta} {e : PError} :
    ∀ {l : List Exercise}, unplayedFilter meta l = .error e → e = .keyError := by
  intro l
  induction l with
  | nil => intro h; exact Except.noConfusion h
  | cons x rest ih =>
    intro h
    unfold unplayedFilter at h
    cases hp : isPlayed meta x.id <;> rw [hp] at h
    · exact (Except.error.inj h) ▸ isPlayed_error hp
    · cases ht : unplayedFilter meta rest <;> rw [ht] at h
      · rename_i a
        exact ih ((Except.error.inj h : a = e) ▸ ht)
      · exact Except.noConfusion h

/-- A successful group check means the group key is present. -/
theorem checkGroupNb_ok_lookup {groups : Dict ExGroup} {k : Option Int}
    (h : checkGroupNb groups k = .ok ()) :
    ∃ g, groups.lookup (pyStr k) = some g := by
  unfold checkGroupNb at h
  cases hl : groups.lookup (pyStr k)
  · rw [hl] at h; simp at h
  · exact ⟨_, rfl⟩

/-- A successful group check makes the subscription succeed. -/
theorem checkGroupNb_ok_getGroup {groups : Dict ExGroup} {k : Option Int}
    (h : checkGroupNb groups k = .ok ()) :
    ∃ g, getGroup groups (pyStr k) = .ok g := by
  obtain ⟨g, hg⟩ := checkGroupNb_ok_lookup h
  exact ⟨g, by unfold getGroup; rw [hg]⟩

/-- An `ok` value is never an `error` value. -/
theorem ok_ne_error {α : Type} {a : α} {e : PError} :
    (Except.ok a : Except PError α) ≠ .error e :=
  fun hc => Except.noConfusion hc

/-- Distinct error payloads give distinct errors. -/
theorem error_ne {α : Type} {e1 e2 : PError} (hne : ¬ e1 = e2) :
    (Except.error e1 : Except PError α) ≠ .error e2 :=
  fun hc => hne (Except.error.inj hc)

/-- A missing group key makes the group check fail. -/
theorem checkGroupNb_none {groups : Dict ExGroup} {k : Option Int}
    (h : groups.lookup (pyStr k) = none) :
    checkGroupNb groups k = .error .invalidGroup := by
  unfold checkGroupNb; rw [h]; rfl

/-- A present group key makes the group check succeed. -/
theorem checkGroupNb_some {groups : Dict ExGroup} {k : Option Int}
    (h : (groups.lookup (pyStr k)).isSome) :
    checkGroupNb groups k = .ok () := by
  unfold checkGroupNb
  cases hl : groups.lookup (pyStr k)
  · rw [hl] at h; exact absurd h (by simp)
  · rfl

/-- Value of `getGroupExercisesCount` after a successful check. -/
theorem getGroupExercisesCount_eq {groups : Dict ExGroup} {g : Int}
    {gr : ExGroup} (h : checkGroupNb groups (some g) = .ok ())
    (hg : getGroup groups (pyStr (some g)) = .ok gr) :
    getGroupExercisesCount groups g = .ok gr.exercises.length := by
  unfold getGroupExercisesCount
  rw [h]; dsimp only; rw [hg]

/-- Value of `checkExerciseNb` after a successful group check. -/
theorem checkExerciseNb_eq {groups : Dict ExGroup} {g : Int} {gr : ExGroup}
    (e0 : Int) (h : checkGroupNb groups (some g) = .ok ())
    (hg : getGroup groups (pyStr (some g)) = .ok gr) :
    checkExerciseNb groups g e0 =
      (if e0 < 0 ∨ e0 ≥ gr.exercises.length then .error .invalidExercise
        else .ok ()) := by
  unfold checkExerciseNb
  rw [h]; dsimp only; rw [hg]

/-- Value of `getRandomGroupExerciseNb` after a successful check. -/
theorem getRandomGroupExerciseNb_eq {groups : Dict ExGroup} {g : Int}
    {gr : ExGroup} (r : Nat) (h : checkGroupNb groups (some g) = .ok ())
    (hg : getGroup groups (pyStr (some g)) = .ok gr) :
    getRandomGroupExerciseNb groups g r =
      (if gr.exercises.length = 0 then .error .valueError
        else .ok (r % gr.exercises.length)) := by
  unfold getRandomGroupExerciseNb
  rw [h]; dsimp only; rw [getGroupExercisesCount_eq h hg]

/-- After a successful group check, `getExerciseId` never reports an
invalid group. -/
theorem getExerciseId_ok_ne {groups : Dict ExGroup} {g : Int} (e0 : Int)
    (h : checkGroupNb groups (some g) = .ok ()) :
    getExerciseId groups g e0 ≠ .error .invalidGroup := by
  obtain ⟨gr, hg⟩ := checkGroupNb_ok_getGroup h
  unfold getExerciseId
  rw [h]; dsimp only
  rw [checkExerciseNb_eq e0 h hg]
  by_cases hb : e0 < 0 ∨ e0 ≥ gr.exercises.length
  · rw [if_pos hb]; exact error_ne (by decide)
  · rw [if_neg hb]; dsimp only; rw [hg]; dsimp only
    cases hi : gr.exercises.get? e0.toNat
    · exact error_ne (by decide)
    · exact ok_ne_error

/-- After a successful group check, `getGroupExercisesCount` never reports
an invalid group. -/
theorem getGroupExercisesCount_ok_ne {groups : Dict ExGroup} {g : Int}
    (h : checkGroupNb groups (some g) = .ok ()) :
    getGroupExercisesCount groups g ≠ .error .invalidGroup := by
  obtain ⟨gr, hg⟩ := checkGroupNb_ok_getGroup h
  rw [getGroupExercisesCount_eq h hg]
  exact ok_ne_error

/-- After a successful group check, `getRandomGroupExerciseNb` never
reports an invalid group. -/
theorem getRandomGroupExerciseNb_ok_ne {groups : Dict ExGroup} {g : Int}
    (r : Nat) (h : checkGroupNb groups (some g) = .ok ()) :
    getRandomGroupExerciseNb groups g r ≠ .error .invalidGroup := by
  obtain ⟨gr, hg⟩ := checkGroupNb_ok_getGroup h
  rw [getRandomGroupExerciseNb_eq r h hg]
  by_cases h0 : gr.exercises.length = 0
  · rw [if_pos h0]; exact error_ne (by decide)
  · rw [if_neg h0]; exact ok_ne_error

/-- After a successful group check, `getRandomExerciseFromGroup` never
reports an invalid group. -/
theorem getRandomExerciseFromGroup_ok_ne {groups : Dict ExGroup} {g : Int}
    (r : Nat) (h : checkGroupNb groups (some g) = .ok ()) :
    getRandomExerciseFromGroup groups g r ≠ .error .invalidGroup := by
  obtain ⟨gr, hg⟩ := checkGroupNb_ok_getGroup h
  unfold getRandomExerciseFromGroup
  rw [h]; dsimp only
  rw [getRandomGroupExerciseNb_eq r h hg]
  by_cases h0 : gr.exercises.length = 0
  · rw [if_pos h0]; exact error_ne (by decide)
  · rw [if_neg h0]; dsimp only
    exact getExerciseId_ok_ne _ h

/-- After a successful group check, `isAllExercisesFromGroupPlayedBody`
never reports an invalid group. -/
theorem isAllBody_ok_ne {groups : Dict ExGroup} {g : Int}
    {meta : Dict ExerciseMeta}
    (h : checkGroupNb groups (some g) = .ok ()) :
    isAllExercisesFromGroupPlayedBody groups meta (some g)
      ≠ .error .invalidGroup := by
  obtain ⟨gr, hg⟩ := checkGroupNb_ok_getGroup h
  unfold isAllExercisesFromGroupPlayedBody
  rw [h]; dsimp only; rw [hg]; dsimp only
  cases hs : allPlayedScan meta gr.exercises
  · rename_i err
    rw [allPlayedScan_error hs]
    exact error_ne (by decide)
  · exact ok_ne_error

/-- After a successful group check, `isOneExerciseFromGroupPlayed` never
reports an invalid group. -/
theorem isOne_ok_ne {groups : Dict ExGroup} {g : Int}
    {meta : Dict ExerciseMeta}
    (h : checkGroupNb groups (some g) = .ok ()) :
    isOneExerciseFromGroupPlayed groups meta g ≠ .error .invalidGroup := by
  obtain ⟨gr, hg⟩ := checkGroupNb_ok_getGroup h
  unfold isOneExerciseFromGroupPlayed
  rw [h]; dsimp only; rw [hg]; dsimp only
  cases hs : anyPlayedScan meta gr.exercises
  · rename_i err
    rw [anyPlayedScan_error hs]
    exact error_ne (by decide)
  · exact ok_ne_error

/-- After a successful group check, `playAnyFromGroup` never reports an
invalid group. -/
theorem playAnyFromGroup_ok_ne {s : PState} {g : Int} (r : Nat)
    (h : checkGroupNb s.exerciseGroups (some g) = .ok ()) :
    (playAnyFromGroup g r s).1 ≠ .error .invalidGroup := by
  obtain ⟨gr, hg⟩ := checkGroupNb_ok_getGroup h
  unfold playAnyFromGroup
  rw [h]; dsimp only; rw [hg]; dsimp only
  cases hs : anyPlayedScan s.exercisesMeta gr.exercises
  · rename_i err
    rw [anyPlayedScan_error hs]
    exact error_ne (by decide)
  · rename_i played
    cases played
    · dsimp only
      rw [getRandomGroupExerciseNb_eq r h hg]
      by_cases h0 : gr.exercises.length = 0
      · rw [if_pos h0]; exact error_ne (by decide)
      · rw [if_neg h0]; dsimp only
        cases hi : gr.exercises.get? (r % gr.exercises.length)
        · exact error_ne (by decide)
        · exact error_ne (by decide)
    · exact ok_ne_error

/-- After a successful group check, `playAllFromGroup` never reports an
invalid group. -/
theorem playAllFromGroup_ok_ne {s : PState} {g : Int} (randomOrder : Bool)
    (r : Nat) (h : checkGroupNb s.exerciseGroups (some g) = .ok ()) :
    (playAllFromGroup g randomOrder r s).1 ≠ .error .invalidGroup := by
  obtain ⟨gr, hg⟩ := checkGroupNb_ok_getGroup h
  unfold playAllFromGroup
  rw [h]; dsimp only; rw [hg]; dsimp only
  cases hs : unplayedFilter s.exercisesMeta gr.exercises
  · rename_i err
    rw [unplayedFilter_error hs]
    exact error_ne (by decide)
  · rename_i unplayed
    cases unplayed with
    | nil => exact ok_ne_error
    | cons e0 rest =>
      dsimp only
      by_cases hro : randomOrder
      · rw [if_pos hro]
        cases hi : (e0 :: rest).get? (r % (e0 :: rest).length)
        · exact error_ne (by decide)
        · exact error_ne (by decide)
      · rw [if_neg hro]
        exact error_ne (by decide)

/-- C3 amended: `checkGroupNb` (shared by every group-indexed function)
validates key membership of `str(groupNb)` in `exerciseGroups`, not the
half-open range: index `-1` raises `InvalidGroupError` exactly when the
reserved key "-1" is absent (when it is present, `-1` passes the check);
index `getGroupsCount()` raises whenever its key is absent (which the
contiguous-key invariant guarantees); any index whose key is present
passes.  Each group-indexed function propagates a failed check as
`InvalidGroupError` (commands leave the state unchanged), and after a
successful check never raises a group error. -/
theorem groupIndex_validation (s : PState) (g e0 : Int) (r : Nat)
    (randomOrder : Bool) :
    (s.exerciseGroups.lookup "-1" = none →
      checkGroupNb s.exerciseGroups (some (-1)) = .error .invalidGroup) ∧
    ((s.exerciseGroups.lookup "-1").isSome →
      checkGroupNb s.exerciseGroups (some (-1)) = .ok ()) ∧
    (s.exerciseGroups.lookup
        (pyStr (some ((getGroupsCount s.exerciseGroups : Nat) : Int))) = none →
      checkGroupNb s.exerciseGroups
        (some ((getGroupsCount s.exerciseGroups : Nat) : Int))
        = .error .invalidGroup) ∧
    ((s.exerciseGroups.lookup (pyStr (some g))).isSome →
      checkGroupNb s.exerciseGroups (some g) = .ok ()) ∧
    (checkGroupNb s.exerciseGroups (some g) = .error .invalidGroup →
      getExerciseId s.exerciseGroups g e0 = .error .invalidGroup ∧
      getGroupExercisesCount s.exerciseGroups g = .error .invalidGroup ∧
      getRandomGroupExerciseNb s.exerciseGroups g r = .error .invalidGroup ∧
      getRandomExerciseFromGroup s.exerciseGroups g r
        = .error .invalidGroup ∧
      isAllExercisesFromGroupPlayedBody s.exerciseGroups s.exercisesMeta
        (some g) = .error .invalidGroup ∧
      isOneExerciseFromGroupPlayed s.exerciseGroups s.exercisesMeta g
        = .error .invalidGroup ∧
      playAnyFromGroup g r s = (.error .invalidGroup, s) ∧
      playAllFromGroup g randomOrder r s = (.error .invalidGroup, s)) ∧
    (checkGroupNb s.exerciseGroups (some g) = .ok () →
      getExerciseId s.exerciseGroups g e0 ≠ .error .invalidGroup ∧
      getGroupExercisesCount s.exerciseGroups g ≠ .error .invalidGroup ∧
      getRandomGroupExerciseNb s.exerciseGroups g r
        ≠ .error .invalidGroup ∧
      getRandomExerciseFromGroup s.exerciseGroups g r
        ≠ .error .invalidGroup ∧
      isAllExercisesFromGroupPlayedBody s.exerciseGroups s.exercisesMeta
        (some g) ≠ .error .invalidGroup ∧
      isOneExerciseFromGroupPlayed s.exerciseGroups s.exercisesMeta g
        ≠ .error .invalidGroup ∧
      (playAnyFromGroup g r s).1 ≠ .error .invalidGroup ∧
      (playAllFromGroup g randomOrder r s).1 ≠ .error .invalidGroup) := by
  refine ⟨?_, ?_, ?_, ?_, ?_, ?_⟩
  · intro h
    exact checkGroupNb_none (show s.exerciseGroups.lookup (pyStr (some (-1)))
      = none from h)
  · intro h
    exact checkGroupNb_some (show (s.exerciseGroups.lookup
      (pyStr (some (-1)))).isSome from h)
  · intro h
    exact checkGroupNb_none h
  · intro h
    exact checkGroupNb_some h
  · intro h
    refine ⟨?_, ?_, ?_, ?_, ?_, ?_, ?_, ?_⟩
    · unfold getExerciseId; rw [h]
    · unfold getGroupExercisesCount; rw [h]
    · unfold getRandomGroupExerciseNb; rw [h]
    · unfold getRandomExerciseFromGroup; rw [h]
    · unfold isAllExercisesFromGroupPlayedBody; rw [h]
    · unfold isOneExerciseFromGroupPlayed; rw [h]
    · unfold playAnyFromGroup; rw [h]
    · unfold playAllFromGroup; rw [h]
  · intro h
    exact ⟨getExerciseId_ok_ne e0 h, getGroupExercisesCount_ok_ne h,
      getRandomGroupExerciseNb_ok_ne r h, getRandomExerciseFromGroup_ok_ne r h,
      isAllBody_ok_ne h, isOne_ok_ne h, playAnyFromGroup_ok_ne r h,
      playAllFromGroup_ok_ne randomOrder r h⟩

/-- Witness for the amended C3 theorem at a concrete state: on `sBase`
(groups "0" and "1", no reserved key), index `-1` is rejected, index
`2 = getGroupsCount()` is rejected, and index `0` is accepted with no
group error from `getGroupExercisesCount`. -/
theorem groupIndex_validation_witness :
    checkGroupNb sBase.exerciseGroups (some (-1)) = .error .invalidGroup ∧
      checkGroupNb sBase.exerciseGroups (some 2) = .error .invalidGroup ∧
      checkGroupNb sBase.exerciseGroups (some 0) = .ok () ∧
      getGroupExercisesCount sBase.exerciseGroups 0
        ≠ .error .invalidGroup := by
  have h := groupIndex_validation sBase 0 0 0 false
  refine ⟨h.1 (by decide), ?_, h.2.2.2.1 (by decide), ?_⟩
  · exact h.2.2.1 (by decide)
  · exact (h.2.2.2.2.2 (h.2.2.2.1 (by decide))).2.1

/-! ### C5 -/

/-- C5: `setActivityGrade` validates the strategy's result against 0..100:
an out-of-range result raises `ValueError` with every piece of state
(including the previously stored grade) unchanged; an in-range result is
stored as the activity grade with no error. -/
theorem setActivityGrade_validates (s : PState) (strategy : PState → Int) :
    ((strategy s < 0 ∨ strategy s > 100) →
      setActivityGrade strategy s = (.error .valueError, s)) ∧
    (0 ≤ strategy s → strategy s ≤ 100 →
      setActivityGrade strategy s =
        (.ok (), { s with activityGrade := some (strategy s) })) := by
  constructor
  · intro h
    unfold setActivityGrade
    rw [if_pos h]
  · intro h1 h2
    unfold setActivityGrade
    rw [if_neg (by omega)]

/-- Witness for C5 at concrete strategies: a strategy returning -1 raises
the validation error leaving the state unchanged, and a strategy returning
50 stores 50. -/
theorem setActivityGrade_validates_witness :
    ((-1 : Int) < 0 ∨ (-1 : Int) > 100) ∧
      setActivityGrade (fun _ => -1) sBase = (.error .valueError, sBase) ∧
      setActivityGrade (fun _ => 50) sBase =
        (.ok (), { sBase with activityGrade := some 50 }) :=
  ⟨Or.inl (by decide),
    (setActivityGrade_validates sBase (fun _ => -1)).1 (Or.inl (by decide)),
    (setActivityGrade_validates sBase (fun _ => 50)).2 (by decide) (by decide)⟩

/-! ### C6 -/

/-- The four validation errors of the claim (as opposed to the `StopExec`
control signal and the built-in lookup failures). -/
def eagerError (e : PError) : Prop :=
  e = .invalidGroup ∨ e = .invalidExercise ∨
    e = .exerciseVariablesNotEnabled ∨ e = .valueError

/-- A validation error is not the stop signal. -/
theorem eagerError_ne_stop {e : PError} (he : eagerError e) :
    ¬ e = .stopExec := by
  rcases he with h | h | h | h <;> subst h <;> decide

/-- A command that either leaves the state unchanged or raises the stop
signal leaves the state unchanged whenever it raises a validation error. -/
theorem unchanged_of_eager {res : CmdResult} {s : PState} {e : PError}
    (hcase : res.2 = s ∨ res.1 = .error .stopExec) (he : eagerError e)
    (hr : res.1 = .error e) : res.2 = s := by
  rcases hcase with h | h
  · exact h
  · exact absurd (Except.error.inj (hr.symm.trans h)) (eagerError_ne_stop he)

/-- `playExercise` always raises the stop signal. -/
theorem playExercise_stop (exerciseId : String) (params : Option (Dict JVal))
    (s : PState) : (playExercise exerciseId params s).1 = .error .stopExec :=
  rfl

/-- `stopActivity` either keeps the state or raises the stop signal. -/
theorem stopActivity_cases (s : PState) :
    (stopActivity s).2 = s ∨ (stopActivity s).1 = .error .stopExec :=
  Or.inr rfl

/-- `playPrevious` either keeps the state or raises the stop signal. -/
theorem playPrevious_cases (s : PState) :
    (playPrevious s).2 = s ∨ (playPrevious s).1 = .error .stopExec := by
  unfold playPrevious
  cases h : getPreviousExerciseId s.navigation with
  | none => exact Or.inl rfl
  | some p =>
    dsimp only
    by_cases hp : p.isEmpty
    · rw [if_pos hp]; exact Or.inl rfl
    · rw [if_neg hp]; exact Or.inr rfl

/-- `playPreviousIfUnplayed` either keeps the state or raises the stop
signal. -/
theorem playPreviousIfUnplayed_cases (s : PState) :
    (playPreviousIfUnplayed s).2 = s ∨
      (playPreviousIfUnplayed s).1 = .error .stopExec := by
  unfold playPreviousIfUnplayed
  cases h : getPreviousExerciseId s.navigation with
  | none => exact Or.inl rfl
  | some p =>
    dsimp only
    by_cases hp : p.isEmpty
    · rw [if_pos hp]; exact Or.inl rfl
    · rw [if_neg hp]
      cases ha : getExerciseAttempts s.exercisesMeta p with
      | error e => exact Or.inl rfl
      | ok a =>
        dsimp only
        by_cases h0 : a = 0
        · rw [if_pos h0]; exact Or.inr rfl
        · rw [if_neg h0]; exact Or.inl rfl

/-- `playAnyFromGroup` either keeps the state or raises the stop signal. -/
theorem playAnyFromGroup_cases (groupNb : Int) (r : Nat) (s : PState) :
    (playAnyFromGroup groupNb r s).2 = s ∨
      (playAnyFromGroup groupNb r s).1 = .error .stopExec := by
  unfold playAnyFromGroup
  cases h1 : checkGroupNb s.exerciseGroups (some groupNb) with
  | error e => exact Or.inl rfl
  | ok u =>
    dsimp only
    cases h2 : getGroup s.exerciseGroups (pyStr (some groupNb)) with
    | error e => exact Or.inl rfl
    | ok g =>
      dsimp only
      cases h3 : anyPlayedScan s.exercisesMeta g.exercises with
      | error e => exact Or.inl rfl
      | ok played =>
        cases played with
        | true => exact Or.inl rfl
        | false =>
          dsimp only
          cases h4 : getRandomGroupExerciseNb s.exerciseGroups groupNb r with
          | error e => exact Or.inl rfl
          | ok n =>
            dsimp only
            cases h5 : g.exercises.get? n with
            | none => exact Or.inl rfl
            | some e => exact Or.inr rfl

/-- `playAllFromGroup` either keeps the state or raises the stop signal. -/
theorem playAllFromGroup_cases (groupNb : Int) (randomOrder : Bool) (r : Nat)
    (s : PState) :
    (playAllFromGroup groupNb randomOrder r s).2 = s ∨
      (playAllFromGroup groupNb randomOrder r s).1 = .error .stopExec := by
  unfold playAllFromGroup
  cases h1 : checkGroupNb s.exerciseGroups (some groupNb) with
  | error e => exact Or.inl rfl
  | ok u =>
    dsimp only
    cases h2 : getGroup s.exerciseGroups (pyStr (some groupNb)) with
    | error e => exact Or.inl rfl
    | ok g =>
      dsimp only
      cases h3 : unplayedFilter s.exercisesMeta g.exercises with
      | error e => exact Or.inl rfl
      | ok unplayed =>
        cases unplayed with
        | nil => exact Or.inl rfl
        | cons e0 rest =>
          dsimp only
          by_cases hro : randomOrder
          · rw [if_pos hro]
            cases h4 : (e0 :: rest).get? (r % (e0 :: rest).length) with
            | none => exact Or.inl rfl
            | some e => exact Or.inr rfl
          · rw [if_neg hro]; exact Or.inr rfl

/-- `playFirstUnplayedExercise` either keeps the state or raises the stop
signal. -/
theorem playFirstUnplayedExercise_cases (s : PState) :
    (playFirstUnplayedExercise s).2 = s ∨
      (playFirstUnplayedExercise s).1 = .error .stopExec := by
  unfold playFirstUnplayedExercise
  cases h1 : firstUnplayedScan s.exerciseGroups s.exercisesMeta
      (List.range (getGroupsCount s.exerciseGroups)) with
  | error e => exact Or.inl rfl
  | ok o =>
    cases o with
    | none => exact Or.inl rfl
    | some e => exact Or.inr rfl

/-- `playNextUnplayedExercise` either keeps the state or raises the stop
signal. -/
theorem playNextUnplayedExercise_cases (loop : Bool) (s : PState) :
    (playNextUnplayedExercise loop s).2 = s ∨
      (playNextUnplayedExercise loop s).1 = .error .stopExec := by
  unfold playNextUnplayedExercise
  dsimp only
  cases h1 : scanNextGroups s.exerciseGroups s.exercisesMeta
      (s.navigation.current.map (fun c => c.id)) false
      (List.range (getGroupsCount s.exerciseGroups)) with
  | error e => exact Or.inl rfl
  | ok o =>
    cases o with
    | some e => exact Or.inr rfl
    | none =>
      dsimp only
      by_cases hl : loop
      · rw [if_pos hl]
        cases h2 : firstUnplayedScan s.exerciseGroups s.exercisesMeta
            (List.range (getGroupsCount s.exerciseGroups)) with
        | error e => exact Or.inl rfl
        | ok o2 =>
          cases o2 with
          | none => exact Or.inl rfl
          | some e => exact Or.inr rfl
      · rw [if_neg hl]; exact Or.inl rfl

/-- `playIfUnplayed` either keeps the state or raises the stop signal. -/
theorem playIfUnplayed_cases (exerciseId : String)
    (params : Option (Dict JVal)) (s : PState) :
    (playIfUnplayed exerciseId params s).2 = s ∨
      (playIfUnplayed exerciseId params s).1 = .error .stopExec := by
  unfold playIfUnplayed
  cases h1 : isPlayed s.exercisesMeta exerciseId with
  | error e => exact Or.inl rfl
  | ok p =>
    cases p with
    | true => exact Or.inl rfl
    | false => exact Or.inr rfl

/-- An erroring `setActivityGrade` keeps the state. -/
theorem setActivityGrade_error_unchanged {strategy : PState → Int}
    {s : PState} {e : PError}
    (hr : (setActivityGrade strategy s).1 = .error e) :
    (setActivityGrade strategy s).2 = s := by
  unfold setActivityGrade at hr ⊢
  by_cases h : strategy s < 0 ∨ strategy s > 100
  · rw [if_pos h]
  · rw [if_neg h] at hr
    exact Except.noConfusion hr

/-- C6: validation is eager — whenever a navigation command or
`setActivityGrade` raises one of the validation errors
(`InvalidGroupError`, `InvalidExerciseError`,
`ExerciseVariablesNotEnabledError`, `ValueError`), the whole shared state
after the call equals the state before it.  (The read-only queries,
including the feature-gated variable accessors, mutate nothing by
construction.) -/
theorem validation_is_eager (s : PState) (exerciseId : String)
    (params : Option (Dict JVal)) (groupNb : Int) (r : Nat)
    (randomOrder loop : Bool) (strategy : PState → Int) (e : PError)
    (he : eagerError e) :
    ((playExercise exerciseId params s).1 = .error e →
      (playExercise exerciseId params s).2 = s) ∧
    ((playPrevious s).1 = .error e → (playPrevious s).2 = s) ∧
    ((playPreviousIfUnplayed s).1 = .error e →
      (playPreviousIfUnplayed s).2 = s) ∧
    ((playAnyFromGroup groupNb r s).1 = .error e →
      (playAnyFromGroup groupNb r s).2 = s) ∧
    ((playAllFromGroup groupNb randomOrder r s).1 = .error e →
      (playAllFromGroup groupNb randomOrder r s).2 = s) ∧
    ((playFirstUnplayedExercise s).1 = .error e →
      (playFirstUnplayedExercise s).2 = s) ∧
    ((playNextUnplayedExercise loop s).1 = .error e →
      (playNextUnplayedExercise loop s).2 = s) ∧
    ((playIfUnplayed exerciseId params s).1 = .error e →
      (playIfUnplayed exerciseId params s).2 = s) ∧
    ((setActivityGrade strategy s).1 = .error e →
      (setActivityGrade strategy s).2 = s) := by
  refine ⟨?_, ?_, ?_, ?_, ?_, ?_, ?_, ?_, ?_⟩
  · intro hr
    exact absurd (Except.error.inj
        (hr.symm.trans (playExercise_stop exerciseId params s)))
      (eagerError_ne_stop he)
  · exact unchanged_of_eager (playPrevious_cases s) he
  · exact unchanged_of_eager (playPreviousIfUnplayed_cases s) he
  · exact unchanged_of_eager (playAnyFromGroup_cases groupNb r s) he
  · exact unchanged_of_eager (playAllFromGroup_cases groupNb randomOrder r s) he
  · exact unchanged_of_eager (playFirstUnplayedExercise_cases s) he
  · exact unchanged_of_eager (playNextUnplayedExercise_cases loop s) he
  · exact unchanged_of_eager (playIfUnplayed_cases exerciseId params s) he
  · intro hr
    exact setActivityGrade_error_unchanged hr

/-- Witness for C6 at a concrete failing call: `playAllFromGroup` with the
out-of-range group 5 raises `InvalidGroupError` and leaves the state
unchanged. -/
theorem validation_is_eager_witness :
    eagerError .invalidGroup ∧
      (playAllFromGroup 5 false 0 sBase).1 = .error .invalidGroup ∧
      (playAllFromGroup 5 false 0 sBase).2 = sBase := by
  have h := validation_is_eager sBase "a" none 5 0 false false (fun _ => 0)
    .invalidGroup (Or.inl rfl)
  exact ⟨Or.inl rfl, rfl, h.2.2.2.2.1 rfl⟩

/-! ### C4 -/

/-- The exercises of the listed groups in group-then-exercise order (a
missing group contributes nothing; the hypotheses below rule that out). -/
def flatExercises (groups : Dict ExGroup) (gs : List Nat) : List Exercise :=
  gs.flatMap (fun g =>
    match groups.lookup (toString g) with
    | some grp => grp.exercises
    | none => [])

/-- All exercises of the activity in group-then-exercise order. -/
def orderedExercises (groups : Dict ExGroup) : List Exercise :=
  flatExercises groups (List.range (getGroupsCount groups))

/-- An exercise with a zero attempt counter (and a meta entry). -/
def unplayedB (meta : Dict ExerciseMeta) (e : Exercise) : Bool :=
  match meta.lookup e.id with
  | some m => decide (m.attempts = 0)
  | none => false

/-- The inner scan distributes over list append. -/
theorem scanNext_append (meta : Dict ExerciseMeta) (cur : Option String)
    (l2 : List Exercise) :
    ∀ (l1 : List Exercise) (found : Bool),
      scanNext meta cur found (l1 ++ l2) =
        (match scanNext meta cur found l1 with
         | .error e => .error e
         | .ok (some e, f) => .ok (some e, f)
         | .ok (none, f) => scanNext meta cur f l2) := by
  intro l1
  induction l1 with
  | nil => intro found; rfl
  | cons x rest ih =>
    intro found
    cases found with
    | false => exact ih (decide (some x.id = cur))
    | true =>
      cases hp : isPlayed meta x.id with
      | error err => simp [List.cons_append, scanNext, hp]
      | ok b =>
        cases b with
        | false => simp [List.cons_append, scanNext, hp]
        | true =>
          simp only [List.cons_append, scanNext, hp, if_true]
          exact ih true

/-- The outer scan over present groups is the inner scan of the flattened
exercise list. -/
theorem scanNextGroups_flat (groups : Dict ExGroup)
    (meta : Dict ExerciseMeta) (cur : Option String) :
    ∀ (gs : List Nat) (found : Bool),
      (∀ g ∈ gs, (groups.lookup (toString g)).isSome) →
      scanNextGroups groups meta cur found gs =
        (match scanNext meta cur found (flatExercises groups gs) with
         | .error e => .error e
         | .ok (o, _) => .ok o) := by
  intro gs
  induction gs with
  | nil => intro found _; rfl
  | cons g rest ih =>
    intro found hlk
    obtain ⟨grp, hgrp⟩ : ∃ grp, groups.lookup (toString g) = some grp := by
      cases hl : groups.lookup (toString g)
      · have := hlk g (List.mem_cons_self g rest)
        rw [hl] at this; exact absurd this (by simp)
      · exact ⟨_, rfl⟩
    have hflat : flatExercises groups (g :: rest) =
        grp.exercises ++ flatExercises groups rest := by
      unfold flatExercises
      rw [List.flatMap_cons, hgrp]
    simp only [scanNextGroups, hgrp]
    rw [hflat, scanNext_append]
    cases hs : scanNext meta cur found grp.exercises with
    | error e => rfl
    | ok pr =>
      obtain ⟨o, f⟩ := pr
      cases o with
      | some e => rfl
      | none =>
        exact ih f (fun g' hg' => hlk g' (List.mem_cons_of_mem g hg'))

/-- With the flag down and the current id absent from the list, the inner
scan finds nothing and leaves the flag down. -/
theorem scanNext_no_cur (meta : Dict ExerciseMeta) (cur : Option String) :
    ∀ l : List Exercise, (∀ e ∈ l, ¬ some e.id = cur) →
      scanNext meta cur false l = .ok (none, false) := by
  intro l
  induction l with
  | nil => intro _; rfl
  | cons x rest ih =>
    intro h
    have hd : decide (some x.id = cur) = false :=
      decide_eq_false (h x (List.mem_cons_self x rest))
    show scanNext meta cur (decide (some x.id = cur)) rest = .ok (none, false)
    rw [hd]
    exact ih (fun e he => h e (List.mem_cons_of_mem x he))

/-- The first-unplayed scan distributes over list append. -/
theorem firstUnplayedInList_append (meta : Dict ExerciseMeta)
    (l2 : List Exercise) :
    ∀ l1 : List Exercise,
      firstUnplayedInList meta (l1 ++ l2) =
        (match firstUnplayedInList meta l1 with
         | .error e => .error e
         | .ok (some e) => .ok (some e)
         | .ok none => firstUnplayedInList meta l2) := by
  intro l1
  induction l1 with
  | nil => rfl
  | cons x rest ih =>
    cases hp : isPlayed meta x.id with
    | error err => simp only [List.cons_append, firstUnplayedInList, hp]
    | ok b =>
      cases b with
      | false => simp only [List.cons_append, firstUnplayedInList, hp]
      | true =>
        simp only [List.cons_append, firstUnplayedInList, hp]
        exact ih

/-- The double loop of the wrap-around scan is the scan of the flattened
exercise list. -/
theorem firstUnplayedScan_flat (groups : Dict ExGroup)
    (meta : Dict ExerciseMeta) :
    ∀ gs : List Nat, (∀ g ∈ gs, (groups.lookup (toString g)).isSome) →
      firstUnplayedScan groups meta gs =
        firstUnplayedInList meta (flatExercises groups gs) := by
  intro gs
  induction gs with
  | nil => intro _; rfl
  | cons g rest ih =>
    intro hlk
    obtain ⟨grp, hgrp⟩ : ∃ grp, groups.lookup (toString g) = some grp := by
      cases hl : groups.lookup (toString g)
      · have := hlk g (List.mem_cons_self g rest)
        rw [hl] at this; exact absurd this (by simp)
      · exact ⟨_, rfl⟩
    have hflat : flatExercises groups (g :: rest) =
        grp.exercises ++ flatExercises groups rest := by
      unfold flatExercises
      rw [List.flatMap_cons, hgrp]
    simp only [firstUnplayedScan, hgrp]
    rw [hflat, firstUnplayedInList_append]
    cases hs : firstUnplayedInList meta grp.exercises with
    | error e => rfl
    | ok o =>
      cases o with
      | some e => rfl
      | none => exact ih (fun g' hg' => hlk g' (List.mem_cons_of_mem g hg'))

/-- With every scanned exercise present in the meta dictionary, the
first-unplayed scan returns the first list element with a zero attempt
counter. -/
theorem firstUnplayedInList_find (meta : Dict ExerciseMeta) :
    ∀ l : List Exercise, (∀ e ∈ l, (meta.lookup e.id).isSome) →
      firstUnplayedInList meta l = .ok (l.find? (unplayedB meta)) := by
  intro l
  induction l with
  | nil => intro _; rfl
  | cons x rest ih =>
    intro h
    obtain ⟨m, hm⟩ : ∃ m, meta.lookup x.id = some m := by
      cases hl : meta.lookup x.id
      · have := h x (List.mem_cons_self x rest)
        rw [hl] at this; exact absurd this (by simp)
      · exact ⟨_, rfl⟩
    have hip : isPlayed meta x.id = .ok (decide (m.attempts > 0)) := by
      unfold isPlayed getExerciseAttempts
      rw [hm]
    have hub : unplayedB meta x = decide (m.attempts = 0) := by
      unfold unplayedB; rw [hm]
    by_cases h0 : m.attempts = 0
    · have hfalse : decide (m.attempts > 0) = false := by
        rw [h0]; rfl
      simp only [firstUnplayedInList, hip, hfalse]
      rw [List.find?_cons, hub]
      rw [show (decide (m.attempts = 0)) = true from by rw [h0]; rfl]
    · have htrue : decide (m.attempts > 0) = true := by
        simp [Nat.pos_of_ne_zero h0]
      simp only [firstUnplayedInList, hip, htrue]
      rw [List.find?_cons, hub]
      rw [show (decide (m.attempts = 0)) = false from by simp [h0]]
      exact ih (fun e he => h e (List.mem_cons_of_mem x he))

/-- C4: with the current exercise at the last position in the global
group-then-exercise order (so that every exercise after it — none — is
played), `playNextUnplayedExercise(False)` returns normally with no stop
signal and no state change; and when at least one unplayed exercise
exists, `playNextUnplayedExercise(True)` raises the stop signal carrying
the id of the first unplayed exercise in group-then-exercise order. -/
theorem playNext_at_end (s : PState) (cur : Current)
    (l : List Exercise) (lastE : Exercise)
    (hgrp : ∀ g ∈ List.range (getGroupsCount s.exerciseGroups),
      (s.exerciseGroups.lookup (toString g)).isSome)
    (hmeta : ∀ e ∈ orderedExercises s.exerciseGroups,
      (s.exercisesMeta.lookup e.id).isSome)
    (hcur : s.navigation.current = some cur)
    (hsplit : orderedExercises s.exerciseGroups = l ++ [lastE])
    (hnotin : ∀ e ∈ l, ¬ e.id = cur.id)
    (hlast : lastE.id = cur.id) :
    playNextUnplayedExercise false s = (.ok (), s) ∧
    ((∃ e ∈ orderedExercises s.exerciseGroups,
        unplayedB s.exercisesMeta e = true) →
      ∃ e0, (orderedExercises s.exerciseGroups).find?
            (unplayedB s.exercisesMeta) = some e0 ∧
        playNextUnplayedExercise true s =
          (.error .stopExec, { s with nextExerciseId := e0.id })) := by
  have hscan : scanNextGroups s.exerciseGroups s.exercisesMeta
      (some cur.id) false
      (List.range (getGroupsCount s.exerciseGroups)) = .ok none := by
    rw [scanNextGroups_flat s.exerciseGroups s.exercisesMeta (some cur.id)
      (List.range (getGroupsCount s.exerciseGroups)) false hgrp]
    rw [show flatExercises s.exerciseGroups
        (List.range (getGroupsCount s.exerciseGroups))
        = orderedExercises s.exerciseGroups from rfl]
    have hone : scanNext s.exercisesMeta (some cur.id) false [lastE]
        = .ok (none, true) := by
      show scanNext s.exercisesMeta (some cur.id)
        (decide (some lastE.id = some cur.id)) [] = .ok (none, true)
      rw [show (decide (some lastE.id = some cur.id)) = true from by
        rw [hlast]; simp]
      rfl
    rw [hsplit, scanNext_append]
    rw [scanNext_no_cur s.exercisesMeta (some cur.id) l
      (fun e he hsome => hnotin e he (Option.some.inj hsome))]
    dsimp only
    rw [hone]
  have hmap : s.navigation.current.map (fun c => c.id) = some cur.id := by
    rw [hcur]; rfl
  constructor
  · unfold playNextUnplayedExercise
    dsimp only
    rw [hmap, hscan]
    rfl
  · intro hex
    have hfind : ((orderedExercises s.exerciseGroups).find?
        (unplayedB s.exercisesMeta)).isSome := List.find?_isSome.mpr hex
    obtain ⟨e0, he0⟩ := Option.isSome_iff_exists.mp hfind
    refine ⟨e0, he0, ?_⟩
    unfold playNextUnplayedExercise
    dsimp only
    rw [hmap, hscan]
    have hwrap : firstUnplayedScan s.exerciseGroups s.exercisesMeta
        (List.range (getGroupsCount s.exerciseGroups)) = .ok (some e0) := by
      rw [firstUnplayedScan_flat s.exerciseGroups s.exercisesMeta
        (List.range (getGroupsCount s.exerciseGroups)) hgrp]
      rw [show flatExercises s.exerciseGroups
          (List.range (getGroupsCount s.exerciseGroups))
          = orderedExercises s.exerciseGroups from rfl]
      rw [firstUnplayedInList_find s.exercisesMeta _ hmeta, he0]
    rw [hwrap]
    rfl

/-- Witness for C4 at `sBase`: exercise c, the last in order, is current;
with loop off nothing happens, with loop on the first unplayed exercise a
is played. -/
theorem playNext_at_end_witness :
    playNextUnplayedExercise false sBase = (.ok (), sBase) ∧
      playNextUnplayedExercise true sBase =
        (.error .stopExec, { sBase with nextExerciseId := "a" }) := by
  have h := playNext_at_end sBase ⟨"c", some 90⟩ [⟨"a"⟩, ⟨"b"⟩] ⟨"c"⟩
    (by decide) (by decide) rfl (by decide) (by decide) rfl
  refine ⟨h.1, ?_⟩
  obtain ⟨e0, hfind, hplay⟩ := h.2 (by decide)
  have he0 : e0 = ⟨"a"⟩ := by
    have hval : (orderedExercises sBase.exerciseGroups).find?
        (unplayedB sBase.exercisesMeta) = some ⟨"a"⟩ := by decide
    exact (Option.some.inj (hval.symm.trans hfind)).symm
  rw [he0] at hplay
  exact hplay

/-! ### C7 -/

/-- The state of the claim's example: three exercises, all played once,
with last grades 80, 90 and 70. -/
def s80 : PState :=
  { sBase with
      exercisesMeta := [("a", ⟨1, [80]⟩), ("b", ⟨1, [90]⟩), ("c", ⟨1, [70]⟩)] }

/-- Mapping an everywhere-defined optional function and dropping the
absent values is mapping the underlying function. -/
theorem filterMap_id_map_eq {α : Type} (f : α → Option Int) (g : α → Int) :
    ∀ l : List α, (∀ x ∈ l, f x = some (g x)) →
      (l.map f).filterMap id = l.map g := by
  intro l
  induction l with
  | nil => intro _; rfl
  | cons x rest ih =>
    intro h
    have hx := h x (List.mem_cons_self x rest)
    simp only [List.map_cons, List.filterMap_cons, hx, id]
    rw [ih (fun y hy => h y (List.mem_cons_of_mem x hy))]

/-- Mapping preserves emptiness. -/
theorem isEmpty_map {α β : Type} (f : α → β) (l : List α) :
    (l.map f).isEmpty = l.isEmpty := by
  cases l <;> rfl

/-- A nonempty grade list's optional last element is its defaulted last
element. -/
theorem getLast?_eq_getLastD {l : List Int} (h : ¬ l = []) :
    l.getLast? = some (l.getLastD 0) := by
  cases hl : l.getLast? with
  | none => exact absurd (List.getLast?_eq_none_iff.mp hl) h
  | some x => rw [List.getLastD_eq_getLast?, hl]; rfl

/-- C7: under the data-model invariant that a played exercise has a
nonempty grade list, `average_grade_strategy` returns the floor division
of the sum of the played exercises' last grades by the number of played
exercises (0 when none is played); over last grades 80, 90 and 70 it
returns 80, which `setActivityGrade` stores. -/
theorem average_strategy_spec :
    (∀ s : PState,
      (∀ p ∈ s.exercisesMeta, p.2.attempts > 0 → ¬ p.2.grades = []) →
      average_grade_strategy s =
        (if (s.exercisesMeta.filter
              (fun p : String × ExerciseMeta => p.2.attempts > 0)).isEmpty
          then 0
          else ((s.exercisesMeta.filter
                (fun p : String × ExerciseMeta => p.2.attempts > 0)).map
              (fun p : String × ExerciseMeta =>
                p.2.grades.getLastD 0)).sum.fdiv
            ((s.exercisesMeta.filter
              (fun p : String × ExerciseMeta => p.2.attempts > 0)).length))) ∧
    average_grade_strategy s80 = 80 ∧
    setActivityGrade average_grade_strategy s80 =
      (.ok (), { s80 with activityGrade := some 80 }) := by
  refine ⟨?_, rfl, rfl⟩
  intro s hINV
  simp only [average_grade_strategy]
  have hall : ∀ p ∈ s.exercisesMeta.filter
        (fun p : String × ExerciseMeta => p.2.attempts > 0),
      (fun q : String × ExerciseMeta => q.2.grades.getLast?) p
        = some (p.2.grades.getLastD 0) := by
    intro p hp
    have hmem := List.mem_of_mem_filter hp
    have hpred := List.of_mem_filter hp
    exact getLast?_eq_getLastD (hINV p hmem (by simpa using hpred))
  rw [filterMap_id_map_eq _ _ _ hall]
  rw [List.sum_eq_foldl, isEmpty_map, List.length_map]

/-- Witness for C7 at the example state: the invariant holds and the
average over last grades 80, 90, 70 is the claimed formula. -/
theorem average_strategy_spec_witness :
    (∀ p ∈ s80.exercisesMeta, p.2.attempts > 0 → ¬ p.2.grades = []) ∧
      average_grade_strategy s80 =
        (if (s80.exercisesMeta.filter
              (fun p : String × ExerciseMeta => p.2.attempts > 0)).isEmpty
          then 0
          else ((s80.exercisesMeta.filter
                (fun p : String × ExerciseMeta => p.2.attempts > 0)).map
              (fun p : String × ExerciseMeta =>
                p.2.grades.getLastD 0)).sum.fdiv
            ((s80.exercisesMeta.filter
              (fun p : String × ExerciseMeta => p.2.attempts > 0)).length)) :=
  ⟨by decide, average_strategy_spec.1 s80 (by decide)⟩

/-! ### C9 -/

/-- A definition-time state with no current exercise. -/
def sdef0 : PState :=
  { sBase with navigation := { current := none, terminated := false } }

/-- C9: the default group of `isAllExercisesFromGroupPlayed` is computed
once, from the navigation state at module-definition time (Python
evaluates default-argument expressions when the `def` executes): the
no-argument call is insensitive to the current exercise at call time, and
when no exercise was current at definition time the frozen default is
`None`, so every no-argument call fails the group check (`str(None)` is
never a group key of a well-formed state) with `InvalidGroupError`. -/
theorem default_group_frozen :
    (∀ sdef s : PState, ∀ c : Option Current,
      isAllExercisesFromGroupPlayed sdef
          { s with navigation := { s.navigation with current := c } } none =
        isAllExercisesFromGroupPlayed sdef s none) ∧
    (∀ sdef s : PState, sdef.navigation.current = none →
      s.exerciseGroups.lookup "None" = none →
      isAllExercisesFromGroupPlayed sdef s none = .error .invalidGroup) := by
  constructor
  · intro sdef s c
    rfl
  · intro sdef s hcur hlook
    unfold isAllExercisesFromGroupPlayed getPreviousGroupNumber
    rw [hcur]
    dsimp only
    unfold isAllExercisesFromGroupPlayedBody
    rw [checkGroupNb_none
      (show s.exerciseGroups.lookup (pyStr none) = none from hlook)]

/-- Witness for C9: with no current exercise at definition time, the
no-argument call on `sBase` raises `InvalidGroupError` even though an
exercise is current at call time. -/
theorem default_group_frozen_witness :
    sdef0.navigation.current = none ∧
      sBase.exerciseGroups.lookup "None" = none ∧
      (sBase.navigation.current).isSome = true ∧
      isAllExercisesFromGroupPlayed sdef0 sBase none = .error .invalidGroup :=
  ⟨rfl, by decide, rfl, default_group_frozen.2 sdef0 sBase rfl (by decide)⟩

/-! ### C10 -/

/-- The merged dictionary ignores a caller-supplied "idExo" entry. -/
theorem mergeIdExo_erase (p : Dict JVal) (exId : String) :
    mergeIdExo (p.filter (fun q => ¬ q.1 = "idExo")) exId =
      mergeIdExo p exId := by
  unfold mergeIdExo
  rw [List.filter_filter]
  simp [Bool.and_self]

/-- C10: a caller-supplied "idExo" key is silently overridden by the
exercise id before hashing: removing the "idExo" entry from a parameter
bag that contains one does not change the hash, and any two bags that
agree outside their "idExo" entries hash identically for the same
exercise. -/
theorem idExo_overridden :
    (∀ (params : Dict JVal) (exId : String),
      "idExo" ∈ params.map Prod.fst →
      hashParams params exId =
        hashParams (params.filter (fun q => ¬ q.1 = "idExo")) exId) ∧
    (∀ (p1 p2 : Dict JVal) (exId : String),
      p1.filter (fun q => ¬ q.1 = "idExo")
          = p2.filter (fun q => ¬ q.1 = "idExo") →
      hashParams p1 exId = hashParams p2 exId) := by
  constructor
  · intro params exId _
    unfold hashParams
    rw [mergeIdExo_erase]
  · intro p1 p2 exId h
    unfold hashParams mergeIdExo
    rw [h]

/-- Witness for C10 at a concrete bag holding an "idExo" entry. -/
theorem idExo_overridden_witness :
    "idExo" ∈ ([("idExo", JVal.jstr "other"), ("a", JVal.jnum 1)] :
        Dict JVal).map Prod.fst ∧
      hashParams [("idExo", JVal.jstr "other"), ("a", JVal.jnum 1)] "ex1" =
        hashParams (([("idExo", JVal.jstr "other"), ("a", JVal.jnum 1)] :
            Dict JVal).filter (fun q => ¬ q.1 = "idExo")) "ex1" :=
  ⟨by decide, idExo_overridden.1 _ "ex1" (by decide)⟩

/-! ### C8 -/

/-- Sorting is invariant under permutation (the sorting relation on the
serialized pairs is total, transitive and antisymmetric). -/
theorem sortPairs_perm_eq {l1 l2 : List (String × String)} (h : l1.Perm l2) :
    sortPairs l1 = sortPairs l2 :=
  List.eq_of_perm_of_sorted
    ((List.perm_insertionSort pairLE l1).trans
      (h.trans (List.perm_insertionSort pairLE l2).symm))
    (List.sorted_insertionSort pairLE l1)
    (List.sorted_insertionSort pairLE l2)

/-- Permuting the parameter bag does not change the hash. -/
theorem hashParams_perm {p1 p2 : Dict JVal} (exId : String)
    (hperm : p1.Perm p2) :
    hashParams p1 exId = hashParams p2 exId := by
  have hm : (mergeIdExo p1 exId).Perm (mergeIdExo p2 exId) :=
    (hperm.filter _).append_right _
  unfold hashParams
  have hser : dumpsObj (mergeIdExo p1 exId) = dumpsObj (mergeIdExo p2 exId) := by
    unfold dumpsObj
    rw [sortPairs_perm_eq (hm.map (fun p => (p.1, jserialize p.2)))]
  rw [hser]

set_option maxRecDepth 8000 in
/-- C8: `hashParams` is deterministic and order-independent — two bags
equal as key-value mappings (permutations of one another, keys being
unique in a dictionary) hash identically for the same exercise id —
the claim's concrete instance holds, and the hash depends on the exercise
id: the same bag hashes differently for "ex1" and "ex2". -/
theorem hashParams_order_independent :
    (∀ (p1 p2 : Dict JVal) (exId : String),
      (p1.map Prod.fst).Nodup → p1.Perm p2 →
      hashParams p1 exId = hashParams p2 exId) ∧
    hashParams [("a", JVal.jnum 1), ("b", JVal.jnum 2)] "ex1" =
      hashParams [("b", JVal.jnum 2), ("a", JVal.jnum 1)] "ex1" ∧
    ¬ hashParams [("a", JVal.jnum 1), ("b", JVal.jnum 2)] "ex1" =
      hashParams [("a", JVal.jnum 1), ("b", JVal.jnum 2)] "ex2" := by
  refine ⟨fun p1 p2 exId _ hp => hashParams_perm exId hp, by decide, by decide⟩

/-- Witness for C8: the two orderings of the example bag have unique keys,
are permutations of one another, and hash identically. -/
theorem hashParams_order_independent_witness :
    (([("a", JVal.jnum 1), ("b", JVal.jnum 2)] :
        Dict JVal).map Prod.fst).Nodup ∧
      hashParams [("a", JVal.jnum 1), ("b", JVal.jnum 2)] "ex1" =
        hashParams [("b", JVal.jnum 2), ("a", JVal.jnum 1)] "ex1" :=
  ⟨by decide, hashParams_order_independent.1 _ _ "ex1" (by decide)
    (List.Perm.swap _ _ _)⟩
